import Mathlib

/-!
# The tracking driver of the dense RGB-D SLAM engine

A shallow embedding of `src/src/Tracking.cpp`: the per-frame driver `Track`
with its three states, the relocalizer `TrackMap`, the frame-to-frame variant
`TrackFrame`, the dense verification `TrackICP`, the pyramid swap of `initICP`
and the pyramidal Gauss-Newton loop of `computeSE3`.

Conventions of the embedding.

* `float` / `double` values are read in exact arithmetic as rationals; only the
  dense-verification cost, which the code tests with `std::isnan`, keeps the
  IEEE special values (`CFloat`).
* GPU buffers and `cv::Mat` images are the flattened lists of their contents.
* Kernels, the feature matcher and the linear-algebra primitives that live
  outside `Tracking.cpp` are fields of `Env`; the theorems hold for every `Env`.
* The RANSAC solver draws random samples, so it reads and advances a generator
  state (`rng`) that is threaded through the tracker state.
* `std::cout` output is recorded in the ghost field `log`, and every launch of
  `icpStep` is recorded (with its pyramid level) in the ghost field `icpCalls`.
* A `std::vector` read is `List.getD`; the matcher and the graph matching
  deliver indices that are in range.
-/

namespace Fusion

/-! ## Data model -/

/-- Modelled from the spec: the macro NUM_PYRS is declared in a header that is
not part of the sources at hand; the spec fixes the number of pyramid levels of
a frame to 3. -/
def NUM_PYRS : Nat := 3

abbrev Vec3 := Fin 3 → ℚ
abbrev Mat3 := Matrix (Fin 3) (Fin 3) ℚ
abbrev Vec6 := Fin 6 → ℚ
abbrev Mat6 := Matrix (Fin 6) (Fin 6) ℚ

/-- A 4x4 matrix of doubles (`Eigen::Matrix4d`), stored entry by entry. -/
structure Mat4 where
  e00 : ℚ
  e01 : ℚ
  e02 : ℚ
  e03 : ℚ
  e10 : ℚ
  e11 : ℚ
  e12 : ℚ
  e13 : ℚ
  e20 : ℚ
  e21 : ℚ
  e22 : ℚ
  e23 : ℚ
  e30 : ℚ
  e31 : ℚ
  e32 : ℚ
  e33 : ℚ
  deriving DecidableEq, Repr

/-- The entries of a stored matrix as a matrix of the library. -/
def Mat4.toMatrix (A : Mat4) : Matrix (Fin 4) (Fin 4) ℚ :=
  !![A.e00, A.e01, A.e02, A.e03;
     A.e10, A.e11, A.e12, A.e13;
     A.e20, A.e21, A.e22, A.e23;
     A.e30, A.e31, A.e32, A.e33]

/-- Storing a matrix of the library. -/
def Mat4.ofMatrix (N : Matrix (Fin 4) (Fin 4) ℚ) : Mat4 :=
  { e00 := N 0 0, e01 := N 0 1, e02 := N 0 2, e03 := N 0 3,
    e10 := N 1 0, e11 := N 1 1, e12 := N 1 2, e13 := N 1 3,
    e20 := N 2 0, e21 := N 2 1, e22 := N 2 2, e23 := N 2 3,
    e30 := N 3 0, e31 := N 3 1, e32 := N 3 2, e33 := N 3 3 }

/-- The matrix product. -/
instance : Mul Mat4 := ⟨fun A B => Mat4.ofMatrix (A.toMatrix * B.toMatrix)⟩

/-- The identity `Eigen::Matrix4d::Identity()`. -/
instance : One Mat4 := ⟨Mat4.ofMatrix 1⟩

/-- The determinant. -/
def Mat4.det (A : Mat4) : ℚ := A.toMatrix.det

/-- Contents of a device array (`DeviceArray`, `DeviceArray2D`), flattened. -/
abbrev Buffer := List ℚ

/-- Contents of a host image (`cv::Mat`), flattened. -/
abbrev CvMat := List ℚ

/-- A 32-byte binary descriptor. -/
abbrev Descriptor := List Int

/-- A single precision value as `Solver::SolveICP` returns it: either one of the
IEEE special values or a finite number. -/
inductive CFloat where
  | nan : CFloat
  | negInf : CFloat
  | posInf : CFloat
  | finite (q : ℚ) : CFloat

/-- The test `std::isnan(cost)`. -/
def CFloat.isnan : CFloat → Bool
  | CFloat.nan => true
  | _ => false

/-- The comparison `cost > thr` against a finite threshold; it is false on NaN. -/
def CFloat.gt (c : CFloat) (thr : ℚ) : Bool :=
  match c with
  | CFloat.nan => false
  | CFloat.negInf => false
  | CFloat.posInf => true
  | CFloat.finite q => decide (thr < q)

/-- The driver states (`enum State`). -/
inductive State where
  | NOT_INITIALISED : State
  | OK : State
  | LOST : State
  deriving DecidableEq, Repr

/-- The lines the tracker writes to `std::cout`. -/
inductive Msg where
  | lostTracking : Msg
  | relocalisationFinished (attempts : Int) : Msg
  | relocalisationFailed (attempts : Int) : Msg
  | initialPoseEstimationFailed : Msg
  | denseVerificationFailed : Msg
  deriving DecidableEq, Repr

/-- A key point of the key map with its binary descriptor (`ORBKey`). -/
structure ORBKey where
  valid : Bool
  pos : Vec3
  normal : Vec3
  descriptor : Descriptor

instance : Inhabited ORBKey :=
  ⟨{ valid := false, pos := 0, normal := 0, descriptor := [] }⟩

/-- A descriptor match (`cv::DMatch`). -/
structure DMatch where
  queryIdx : Nat
  trainIdx : Nat
  distance : ℚ

/-- The members of `Frame` that `Tracking.cpp` reads or writes. -/
structure Frame where
  rawDepth : CvMat
  rawColor : CvMat
  mPose : Mat4
  mDescriptors : List Descriptor
  mPoints : List Vec3
  mNormals : List Vec3
  mOutliers : List Bool
  mNkp : Nat
  mDepth0 : Buffer

/-- The method `Frame::SetPose(pose)`. -/
def Frame.SetPose (f : Frame) (pose : Mat4) : Frame :=
  { f with mPose := pose }

/-- What one launch of `icpStep` hands back: the normal equations and the two
residual figures. -/
structure ICPResult where
  matA : Mat6
  vecB : Vec6
  residual : ℚ × ℚ

/-- What `BuildAdjecencyMatrix` hands back: the selected train and query keys and
the index of the match each selection came from. -/
structure GraphSelection where
  train_select : List ORBKey
  query_select : List ORBKey
  SelectedIdx : List Int

/-- What `Solver::SolveAbsoluteOrientation` hands back: the success flag, the
outlier vector, the transform and the advanced state of the sampler. -/
structure SolveResult where
  bOK : Bool
  outliers : List Bool
  Td : Mat4
  rng : Nat

/-- The collaborators of the tracker that are implemented outside
`Tracking.cpp`. -/
structure Env where
  /-- The constructor `Frame(imRGB, imD)`. -/
  Frame_ctor : CvMat → CvMat → Frame
  /-- The copy constructor `Frame(other)`. -/
  Frame_copy : Frame → Frame
  /-- The static member `Frame::mDepthScale`. -/
  mDepthScale : ℚ
  BilateralFiltering : Buffer → ℚ → Buffer
  PyrDownGaussian : Buffer → Buffer
  /-- Back projection of a depth level with the cutoff and the intrinsics of
  that level. -/
  BackProjectPoints : Buffer → Nat → Buffer
  ComputeNormalMap : Buffer → Buffer
  /-- One reduction of the point-to-plane normal equations at a level. -/
  icpStep : Buffer → Buffer → Buffer → Buffer → Nat → Frame → Frame → ICPResult
  /-- The solve `matA.ldlt().solve(vecB)`. -/
  ldltSolve : Mat6 → Vec6 → Vec6
  /-- The matrix of `Sophus::SE3d::exp`. -/
  se3Exp : Vec6 → Mat4
  /-- The sines of `rot.eulerAngles(0, 1, 2)`. -/
  eulerAnglesSin : Mat3 → Vec3
  /-- The call `mpMap->GetORBKeys(keys, n)`. -/
  GetORBKeys : Nat → List ORBKey × Nat
  /-- The call `knnMatch(query, train, rawMatches, k)`; with k = 2 every row
  holds the best and the second best match. -/
  knnMatch : List Descriptor → List Descriptor → Nat → List (DMatch × DMatch)
  /-- The indeterminate content of the local `ORBKey queryKey`, which is declared
  without an initialiser, in iteration `i` of the loop over the matches. -/
  uninitQueryKey : Nat → ORBKey
  BuildAdjecencyMatrix : List ORBKey → List ORBKey → List ℚ → List Nat → GraphSelection
  /-- The RANSAC solver, called with the state of its sampler, the two point
  lists, the outlier vector, the initial transform and the iteration budget. -/
  SolveAbsoluteOrientation :
    Nat → List Vec3 → List Vec3 → List Bool → Mat4 → Nat → SolveResult
  SolveICP : Frame → Frame → CFloat

/-- The members of `Tracking`, together with the ghost fields `rng`, `log` and
`icpCalls`. -/
structure Tracking where
  lastDepth : Nat → Buffer
  lastImage : Nat → Buffer
  lastVMap : Nat → Buffer
  lastNMap : Nat → Buffer
  nextDepth : Nat → Buffer
  nextImage : Nat → Buffer
  nextVMap : Nat → Buffer
  nextNMap : Nat → Buffer
  depth : Buffer
  color : Buffer
  iteration : Nat → Int
  mNextState : State
  mLastState : State
  mNextFrame : Frame
  mLastFrame : Frame
  nextPose : Mat4
  lastPose : Mat4
  lastUpdatedPose : Mat4
  currentPose : Mat4
  /-- The pointer `mpMap`. -/
  mpMap : Nat
  mnMapPoints : Nat
  mnNoAttempts : Int
  mDeviceKeys : List ORBKey
  mHostKeys : List ORBKey
  mMapPoints : List Vec3
  desc : List Descriptor
  mRotThresh : ℚ
  mTransThresh : ℚ
  rng : Nat
  log : List Msg
  icpCalls : List Nat

/-! ## Linear algebra computed inside `Tracking.cpp` -/

/-- The inverse in exact arithmetic: the adjugate divided by the determinant. -/
def matInverse (N : Matrix (Fin 4) (Fin 4) ℚ) : Matrix (Fin 4) (Fin 4) ℚ :=
  (N.det)⁻¹ • N.adjugate

/-- The method `.inverse()` of a 4x4 matrix, in exact arithmetic. -/
def inverse (M : Mat4) : Mat4 := Mat4.ofMatrix (matInverse M.toMatrix)

/-- The block `.topLeftCorner(3,3)`. -/
def topLeftCorner (M : Mat4) : Mat3 :=
  fun i j => M.toMatrix (Fin.castSucc i) (Fin.castSucc j)

/-- The block `.topRightCorner(3,1)`. -/
def topRightCorner (M : Mat4) : Vec3 :=
  fun i => M.toMatrix (Fin.castSucc i) 3

/-! ## The constructor, `SetState`, `ResetTracking`, `InitTracking` -/

/-- The constructor `Tracking::Tracking()`. It creates the buffers, stores the
iteration budget of the three levels and sets the next state; every other
member keeps the indeterminate content `g` it is born with. -/
def Tracking_ctor (g : Tracking) : Tracking :=
  { g with
    iteration :=
      Function.update (Function.update (Function.update g.iteration 0 10) 1 5) 2 3
    mNextState := State.NOT_INITIALISED }

/-- The method `Tracking::SetState`. -/
def SetState (t : Tracking) (s : State) : Tracking :=
  { t with mLastState := t.mNextState, mNextState := s }

/-- The method `Tracking::ResetTracking`. -/
def ResetTracking (t : Tracking) : Tracking :=
  { t with mNextState := State.NOT_INITIALISED }

/-- The method `Tracking::InitTracking`: clears the outlier flags of the incoming
frame and reports success. -/
def InitTracking (t : Tracking) : Bool × Tracking :=
  (true, { t with
    mNextFrame := { t.mNextFrame with mOutliers := List.replicate t.mNextFrame.mNkp false } })

/-! ## `initICP`: swap of the pyramids and preprocessing of the incoming frame -/

/-- One pass of the first loop of `initICP`: the four `swap` calls at level `i`. -/
def swapLevel (t : Tracking) (i : Nat) : Tracking :=
  { t with
    nextImage := Function.update t.nextImage i (t.lastImage i)
    lastImage := Function.update t.lastImage i (t.nextImage i)
    nextDepth := Function.update t.nextDepth i (t.lastDepth i)
    lastDepth := Function.update t.lastDepth i (t.nextDepth i)
    nextVMap := Function.update t.nextVMap i (t.lastVMap i)
    lastVMap := Function.update t.lastVMap i (t.nextVMap i)
    nextNMap := Function.update t.nextNMap i (t.lastNMap i)
    lastNMap := Function.update t.lastNMap i (t.nextNMap i) }

/-- One pass of the pyramid loop of `initICP`, for a level `i` from 1 on. -/
def pyrDownLevel (env : Env) (t : Tracking) (i : Nat) : Tracking :=
  { t with nextDepth := Function.update t.nextDepth i (env.PyrDownGaussian (t.nextDepth (i - 1))) }

/-- One pass of the last loop of `initICP`: vertex map and normal map of level `i`. -/
def backProjectLevel (env : Env) (t : Tracking) (i : Nat) : Tracking :=
  let vmap := env.BackProjectPoints (t.nextDepth i) i
  { t with
    nextVMap := Function.update t.nextVMap i vmap
    nextNMap := Function.update t.nextNMap i (env.ComputeNormalMap vmap) }

/-- The method `Tracking::initICP`. -/
def initICP (env : Env) (t : Tracking) : Tracking :=
  let t := (List.range NUM_PYRS).foldl swapLevel t
  let t := { t with depth := t.mNextFrame.rawDepth }
  let t := { t with
    nextDepth := Function.update t.nextDepth 0 (env.BilateralFiltering t.depth env.mDepthScale) }
  let t := { t with color := t.mNextFrame.rawColor }
  let t := ((List.range NUM_PYRS).tail).foldl (pyrDownLevel env) t
  (List.range NUM_PYRS).foldl (backProjectLevel env) t

/-! ## `computeSE3`: the pyramidal Gauss-Newton loop -/

/-- The increment `result` solved for in one pass of the inner loop of
`computeSE3` at level `i`: a launch of `icpStep` followed by the LDLT solve of
`matA * result = vecB`. -/
def gnIncrement (env : Env) (t : Tracking) (i : Nat) : Vec6 :=
  let r := env.icpStep (t.nextVMap i) (t.lastVMap i) (t.nextNMap i) (t.lastNMap i) i
    t.mNextFrame t.mLastFrame
  env.ldltSolve r.matA r.vecB

/-- The body of the inner loop of `computeSE3` at level `i`: one launch of
`icpStep`, the LDLT solve, the exponential and the pose update. -/
def icpIteration (env : Env) (t : Tracking) (i : Nat) : Tracking :=
  let result := gnIncrement env t i
  let dT := env.se3Exp result
  let nextPose := t.lastPose * inverse (inverse dT * inverse t.nextPose * t.lastPose)
  { t with
    nextPose := nextPose
    mNextFrame := t.mNextFrame.SetPose nextPose
    icpCalls := t.icpCalls ++ [i] }

/-- The inner loop `for (j = 0; j < iteration[i]; ++j)` at level `i`. -/
def icpLevel (env : Env) (t : Tracking) (i : Nat) : Tracking :=
  (List.range (t.iteration i).toNat).foldl (fun t _ => icpIteration env t i) t

/-- The method `Tracking::computeSE3`; the outer loop runs `i` from
`NUM_PYRS - 1` down to 0. -/
def computeSE3 (env : Env) (t : Tracking) : Tracking :=
  let t := { t with nextPose := t.mLastFrame.mPose }
  let t := { t with lastPose := t.mLastFrame.mPose }
  let t := { t with lastUpdatedPose := t.nextPose }
  let t := { t with mNextFrame := t.mNextFrame.SetPose t.nextPose }
  let t := ((List.range NUM_PYRS).reverse).foldl (icpLevel env) t
  { t with mNextFrame := { t.mNextFrame with mDepth0 := t.nextDepth 0 } }

/-! ## `TrackMap`: the relocalizer -/

/-- The block of `TrackMap` guarded by `mLastState == OK`: the key map is
fetched again. The flag of the result tells that the early `return false` for an
empty key map was taken. -/
def reloadMapKeys (env : Env) (t : Tracking) : Bool × Tracking :=
  let t := { t with mnNoAttempts := 0 }
  let r := env.GetORBKeys t.mpMap
  let t := { t with mDeviceKeys := r.1, mnMapPoints := r.2 }
  if t.mnMapPoints = 0 then
    (true, { t with desc := [] })
  else
    let hostKeys := (List.range t.mnMapPoints).map (fun i => t.mDeviceKeys.getD i default)
    (false, { t with
      mHostKeys := hostKeys
      desc := hostKeys.map (fun key => (List.range 32).map (fun j => key.descriptor.getD j 0))
      mMapPoints := hostKeys.map (fun key => key.pos) })

/-- The ratio test `firstMatch.distance < 0.85 * secondMatch.distance`. Hamming
distances are whole numbers, for which the product in double precision compares
as the exact one. -/
def ratioTest (firstMatch secondMatch : DMatch) : Bool :=
  decide (firstMatch.distance < 0.85 * secondMatch.distance)

/-- The loop of `TrackMap` over the rows of `rawMatches`. -/
def collectMatches (bUseGraphMatching : Bool) (rawMatches : List (DMatch × DMatch)) :
    List DMatch :=
  rawMatches.foldl (fun ms row =>
    if ratioTest row.1 row.2 then ms ++ [row.1]
    else if bUseGraphMatching then ms ++ [row.1, row.2]
    else ms) []

/-- The four vectors filled by the first loop of the graph matching branch. -/
structure GraphInput where
  vFrameKey : List ORBKey
  vMapKey : List ORBKey
  vDistance : List ℚ
  vQueryIdx : List Nat

/-- The first loop of the graph matching branch, over the matches. -/
def graphInput (env : Env) (t : Tracking) (ms : List DMatch) : GraphInput :=
  (List.range ms.length).foldl (fun acc i =>
    let m := ms.getD i ⟨0, 0, 0⟩
    let trainKey := t.mHostKeys.getD m.trainIdx default
    let queryKey := env.uninitQueryKey i
    if trainKey.valid && queryKey.valid then
      let queryKey := { queryKey with
        pos := t.mNextFrame.mPoints.getD m.queryIdx 0
        normal := t.mNextFrame.mNormals.getD m.queryIdx 0 }
      { vFrameKey := acc.vFrameKey ++ [queryKey]
        vMapKey := acc.vMapKey ++ [trainKey]
        vDistance := acc.vDistance ++ [m.distance]
        vQueryIdx := acc.vQueryIdx ++ [m.queryIdx] }
    else acc) ⟨[], [], [], []⟩

/-- The inner loop of the second loop of the graph matching branch: is the index
selected at position `i` already present at a position `j < i`? -/
def redundant (vSelectedIdx : List Int) (i : Nat) : Bool :=
  (List.range i).any (fun j => vSelectedIdx.getD j 0 == vSelectedIdx.getD i 0)

/-- The second loop of the graph matching branch: it runs over
`query_select.size()` positions and builds `plist` and `qlist`. -/
def selectCorrespondences (vORB_query vORB_train : List ORBKey) (vSelectedIdx : List Int) :
    List Vec3 × List Vec3 :=
  (List.range vORB_query.length).foldl (fun pq i =>
    if (vORB_query.getD i default).valid && (vORB_train.getD i default).valid then
      if !redundant vSelectedIdx i then
        (pq.1 ++ [(vORB_query.getD i default).pos], pq.2 ++ [(vORB_train.getD i default).pos])
      else pq
    else pq) ([], [])

/-- The graph matching branch of `TrackMap`. -/
def graphCorrespondences (env : Env) (t : Tracking) (ms : List DMatch) :
    List Vec3 × List Vec3 :=
  let gi := graphInput env t ms
  let sel := env.BuildAdjecencyMatrix gi.vMapKey gi.vFrameKey gi.vDistance gi.vQueryIdx
  selectCorrespondences sel.query_select sel.train_select sel.SelectedIdx

/-- The branch of `TrackMap` without graph matching. -/
def directCorrespondences (t : Tracking) (ms : List DMatch) : List Vec3 × List Vec3 :=
  (ms.map (fun m => t.mNextFrame.mPoints.getD m.queryIdx 0),
   ms.map (fun m => t.mMapPoints.getD m.trainIdx 0))

/-- The call of `knnMatch` in `TrackMap`: the descriptors of the incoming frame
against the descriptor block of the key map, with k = 2. -/
def rawMatches (env : Env) (t : Tracking) : List (DMatch × DMatch) :=
  env.knnMatch t.mNextFrame.mDescriptors t.desc 2

/-- The call of the absolute-orientation solver in `TrackMap`, on the collected
matches `ms`. -/
def mapSolve (env : Env) (t : Tracking) (bUseGraphMatching : Bool) (ms : List DMatch) :
    SolveResult :=
  let pq := if bUseGraphMatching then graphCorrespondences env t ms
    else directCorrespondences t ms
  env.SolveAbsoluteOrientation t.rng pq.1 pq.2 t.mNextFrame.mOutliers 1 200

/-- The part of `TrackMap` from the descriptor matching on. -/
def matchAndSolve (env : Env) (t : Tracking) (bUseGraphMatching : Bool) : Bool × Tracking :=
  let ms := collectMatches bUseGraphMatching (rawMatches env t)
  if ms.length < 50 then (false, t)
  else
    let r := mapSolve env t bUseGraphMatching ms
    let t := { t with
      mNextFrame := { t.mNextFrame with mOutliers := r.outliers }
      rng := r.rng
      mnNoAttempts := t.mnNoAttempts + 1 }
    if !r.bOK then
      (false, { t with log := t.log ++ [Msg.relocalisationFailed t.mnNoAttempts] })
    else
      (true, { t with mNextFrame := t.mNextFrame.SetPose (inverse r.Td) })

/-- The first part of `TrackMap`, up to the descriptor matching: the key map is
fetched again when the last state is `OK`. The flag tells that `TrackMap` has
already returned false. -/
def prepareMap (env : Env) (t : Tracking) : Bool × Tracking :=
  if t.mLastState = State.OK then reloadMapKeys env t else (false, t)

/-- The method `Tracking::TrackMap`. -/
def TrackMap (env : Env) (t : Tracking) (bUseGraphMatching : Bool) : Bool × Tracking :=
  let r := prepareMap env t
  if r.1 then (false, r.2) else matchAndSolve env r.2 bUseGraphMatching

/-! ## `TrackFrame`, `TrackICP`, `TrackLastFrame` -/

/-- The matches of `TrackFrame` that pass the ratio test. -/
def frameMatches (env : Env) (t : Tracking) : List DMatch :=
  (env.knnMatch t.mNextFrame.mDescriptors t.mLastFrame.mDescriptors 2).foldl
    (fun ms row => if ratioTest row.1 row.2 then ms ++ [row.1] else ms) []

/-- The call of the absolute-orientation solver in `TrackFrame`. -/
def frameSolve (env : Env) (t : Tracking) : SolveResult :=
  let ms := frameMatches env t
  env.SolveAbsoluteOrientation t.rng
    (ms.map (fun m => t.mNextFrame.mPoints.getD m.queryIdx 0))
    (ms.map (fun m => t.mLastFrame.mPoints.getD m.trainIdx 0))
    t.mNextFrame.mOutliers 1 100

/-- The condition of the inner `if` of `TrackFrame`: some Euler-angle sine of the
rotation of the inverse of `Td`, or some component of its translation, is larger
in magnitude than its threshold. -/
def sanityGate (env : Env) (mRotThresh mTransThresh : ℚ) (Td : Mat4) : Bool :=
  let ea := env.eulerAnglesSin (topLeftCorner (inverse Td))
  let trans := topRightCorner (inverse Td)
  decide (|ea 0| > mRotThresh) || decide (|ea 1| > mRotThresh) ||
  decide (|ea 2| > mRotThresh) || decide (|trans 0| > mTransThresh) ||
  decide (|trans 1| > mTransThresh) || decide (|trans 2| > mTransThresh)

/-- The method `Tracking::TrackFrame`. -/
def TrackFrame (env : Env) (t : Tracking) : Bool × Tracking :=
  let r := frameSolve env t
  let t1 := { t with mNextFrame := { t.mNextFrame with mOutliers := r.outliers }, rng := r.rng }
  if !r.bOK && sanityGate env t1.mRotThresh t1.mTransThresh r.Td then
    (false, { t1 with log := t1.log ++ [Msg.initialPoseEstimationFailed] })
  else
    let Tp := t1.mLastFrame.mPose
    let Tc := inverse r.Td * Tp
    (true, { t1 with mNextFrame := t1.mNextFrame.SetPose Tc })

/-- The method `Tracking::TrackICP`: the dense verification. A single precision
cost is above the double `1e-3` exactly when it is above one thousandth. -/
def TrackICP (env : Env) (t : Tracking) : Bool × Tracking :=
  let cost := env.SolveICP t.mNextFrame t.mLastFrame
  if cost.isnan || cost.gt (1 / 1000) then
    (false, { t with log := t.log ++ [Msg.denseVerificationFailed] })
  else (true, t)

/-- The method `Tracking::TrackLastFrame`; `SetPose(mLastFrame)` takes over the
pose of the last frame. -/
def TrackLastFrame (env : Env) (t : Tracking) : Bool × Tracking :=
  TrackICP env { t with mNextFrame := t.mNextFrame.SetPose t.mLastFrame.mPose }

/-! ## `Track`: the per-frame driver -/

/-- The first statement of `Track`: the incoming frame is built and stored. -/
def withFrame (env : Env) (t : Tracking) (imRGB imD : CvMat) : Tracking :=
  { t with mNextFrame := env.Frame_ctor imRGB imD }

/-- The first statement of the branch of `Track` for a false flag: the line
"lost tracking" is written. -/
def beforeRetry (t : Tracking) : Tracking :=
  { t with log := t.log ++ [Msg.lostTracking] }

/-- The `switch (mNextState)` of `Track`. -/
def trackDispatch (env : Env) (t : Tracking) : Bool × Tracking :=
  match t.mNextState with
  | State.NOT_INITIALISED => InitTracking (initICP env t)
  | State.OK => (true, computeSE3 env (initICP env t))
  | State.LOST => TrackMap env t true

/-- The part of `Track` after the `switch`, entered with the flag `bOK`. -/
def trackFinish (env : Env) (bOK : Bool) (t : Tracking) : Bool × Tracking :=
  if !bOK then
    let t := beforeRetry t
    let r := TrackMap env t true
    if !r.1 then (r.1, SetState r.2 State.LOST) else (r.1, r.2)
  else
    let t := { t with mLastFrame := env.Frame_copy t.mNextFrame }
    let t := { t with currentPose := t.nextPose }
    let t := SetState t State.OK
    if t.mLastState = State.LOST then
      (bOK, { t with log := t.log ++ [Msg.relocalisationFinished t.mnNoAttempts] })
    else (bOK, t)

/-- The method `Tracking::Track`. -/
def Track (env : Env) (t : Tracking) (imRGB imD : CvMat) : Bool × Tracking :=
  let t := withFrame env t imRGB imD
  let r := trackDispatch env t
  trackFinish env r.1 r.2

/-- The first relocalization attempt of a call of `Track` in state `LOST`: the
call of `TrackMap` in the `switch`. -/
def firstAttempt (env : Env) (t : Tracking) (imRGB imD : CvMat) : Bool × Tracking :=
  TrackMap env (withFrame env t imRGB imD) true

/-- The second relocalization attempt of a call of `Track` in state `LOST`: the
call of `TrackMap` after the line "lost tracking", made when the first attempt
has failed. -/
def retryAttempt (env : Env) (t : Tracking) (imRGB imD : CvMat) : Bool × Tracking :=
  TrackMap env (beforeRetry (firstAttempt env t imRGB imD).2) true

/-! ## Concrete collaborators and tracker states -/

/-- The rigid transform with identity rotation and translation `(x, y, z)`. -/
def translation (x y z : ℚ) : Mat4 :=
  { e00 := 1, e01 := 0, e02 := 0, e03 := x,
    e10 := 0, e11 := 1, e12 := 0, e13 := y,
    e20 := 0, e21 := 0, e22 := 1, e23 := z,
    e30 := 0, e31 := 0, e32 := 0, e33 := 1 }

/-- A valid key of the key map, two metres in front of the origin. -/
def mapKey (i : Nat) : ORBKey :=
  { valid := true, pos := ![(i : ℚ), 0, 2], normal := ![0, 0, -1],
    descriptor := List.replicate 32 0 }

/-- A frame with `n` key points one metre in front of the camera, at the
identity pose. -/
def keyFrame (n : Nat) : Frame :=
  { rawDepth := [], rawColor := [], mPose := 1
    mDescriptors := List.replicate n (List.replicate 32 0)
    mPoints := (List.range n).map (fun i => ![(i : ℚ), 0, 1])
    mNormals := List.replicate n ![0, 0, -1]
    mOutliers := List.replicate n false
    mNkp := n, mDepth0 := [] }

/-- A tracker with empty buffers, identity poses, thresholds of one half, a key
map of two keys and an incoming and a last frame of `n` key points each. -/
def benchTracking (n : Nat) : Tracking :=
  { lastDepth := fun _ => [], lastImage := fun _ => [], lastVMap := fun _ => [],
    lastNMap := fun _ => [], nextDepth := fun _ => [], nextImage := fun _ => [],
    nextVMap := fun _ => [], nextNMap := fun _ => [], depth := [], color := [],
    iteration := fun _ => 0, mNextState := State.NOT_INITIALISED,
    mLastState := State.NOT_INITIALISED, mNextFrame := keyFrame n, mLastFrame := keyFrame n,
    nextPose := 1, lastPose := 1, lastUpdatedPose := 1, currentPose := 1, mpMap := 0,
    mnMapPoints := 2, mnNoAttempts := 0, mDeviceKeys := [mapKey 0, mapKey 1],
    mHostKeys := [mapKey 0, mapKey 1], mMapPoints := [(mapKey 0).pos, (mapKey 1).pos],
    desc := [List.replicate 32 0, List.replicate 32 0],
    mRotThresh := 1 / 2, mTransThresh := 1 / 2, rng := 0, log := [], icpCalls := [] }

/-- A tracker without key points in its frames. -/
def blankTracking : Tracking := benchTracking 0

/-- The row of a k = 2 match result for key point `i` that fails the ratio test:
both neighbours at Hamming distance 10. -/
def tiedRow (i : Nat) : DMatch × DMatch := (⟨i, i % 2, 10⟩, ⟨i, (i + 1) % 2, 10⟩)

/-- The row of a k = 2 match result for key point `i` that passes the ratio test:
the best neighbour at Hamming distance 10, the second best at 40. -/
def clearRow (i : Nat) : DMatch × DMatch := (⟨i, i % 2, 10⟩, ⟨i, (i + 1) % 2, 40⟩)

/-- A family of concrete collaborators. Every incoming frame has `n` key points
and the matcher answers with `rows`; the local `queryKey` is born valid and the
graph matching selects the first three matches; the RANSAC solver succeeds
exactly when `solves` holds of the state of its sampler, returns the transform
`Td` and advances the sampler by one; the dense verification reports `cost`.
Every launch of `icpStep` yields the normal equations
`1 * result = (1, 0, 0, 0, 0, 0)`, which `ldltSolve` solves exactly, and `se3Exp`
is the exponential of a twist without rotational part, a pure translation; the
Euler-angle sines are those of the identity rotation. -/
def benchEnv (n : Nat) (rows : List (DMatch × DMatch)) (solves : Nat → Bool) (Td : Mat4)
    (cost : CFloat) : Env :=
  { Frame_ctor := fun _ _ => keyFrame n
    Frame_copy := fun f => f
    mDepthScale := 1
    BilateralFiltering := fun b _ => b
    PyrDownGaussian := fun b => b
    BackProjectPoints := fun b _ => b
    ComputeNormalMap := fun b => b
    icpStep := fun _ _ _ _ _ _ _ => ⟨1, ![1, 0, 0, 0, 0, 0], (0, 0)⟩
    ldltSolve := fun _ b => b
    se3Exp := fun d => translation (d 0) (d 1) (d 2)
    eulerAnglesSin := fun _ => 0
    GetORBKeys := fun _ => ([mapKey 0, mapKey 1], 2)
    knnMatch := fun _ _ _ => rows
    uninitQueryKey := fun _ => mapKey 0
    BuildAdjecencyMatrix := fun trainKeys queryKeys _ _ =>
      ⟨trainKeys.take 3, queryKeys.take 3, [0, 1, 2]⟩
    SolveAbsoluteOrientation := fun rng _ _ outliers _ _ => ⟨solves rng, outliers, Td, rng + 1⟩
    SolveICP := fun _ _ => cost }

/-- Collaborators whose matcher finds nothing and whose solver never succeeds. -/
def idleEnv : Env := benchEnv 0 [] (fun _ => false) 1 (CFloat.finite 0)

/-- Collaborators whose solver always succeeds, from three matches, and reports
a displacement of one metre along the first axis. -/
def oneMetreEnv : Env :=
  benchEnv 3 ((List.range 3).map clearRow) (fun _ => true) (translation 1 0 0) (CFloat.finite 0)

/-- Collaborators whose matcher delivers 25 rows, none of which passes the ratio
test, and whose solver succeeds. -/
def tiedEnv : Env :=
  benchEnv 25 ((List.range 25).map tiedRow) (fun _ => true) 1 (CFloat.finite 0)

/-- Collaborators whose matcher delivers one row that passes the ratio test and
one that fails it, and whose solver succeeds. -/
def twoRowEnv : Env := benchEnv 2 [clearRow 0, tiedRow 1] (fun _ => true) 1 (CFloat.finite 0)

/-- Five valid query keys, as the graph matching may select them. -/
def fiveQueryKeys : List ORBKey :=
  (List.range 5).map (fun i => { mapKey i with pos := ![(i : ℚ), 0, 1] })

/-- Five valid train keys. -/
def fiveTrainKeys : List ORBKey := (List.range 5).map mapKey

/-- Collaborators whose dense verification reports NaN, whose matcher finds
nothing and whose solver never succeeds. -/
def nanEnv : Env := benchEnv 0 [] (fun _ => false) 1 CFloat.nan

/-- Collaborators whose matcher delivers 50 rows that pass the ratio test and
whose RANSAC solver fails on its first call (sampler state 0) and succeeds
afterwards. -/
def retryEnv : Env :=
  benchEnv 50 ((List.range 50).map clearRow) (fun rng => decide (rng ≠ 0)) 1 (CFloat.finite 0)

/-- A tracker in state `OK`, entered from `OK`. -/
def okTracking : Tracking :=
  { benchTracking 0 with mNextState := State.OK, mLastState := State.OK }

/-- A tracker in state `LOST`, entered from `LOST`, whose frames have `n` key
points. -/
def lostTracking (n : Nat) : Tracking :=
  { benchTracking n with mNextState := State.LOST, mLastState := State.LOST }

/-- A tracker in state `LOST` whose next and last depth pyramids differ. -/
def lostTrackingWithPyramids : Tracking :=
  { lostTracking 0 with nextDepth := fun _ => [1], lastDepth := fun _ => [0] }

/-- What the relocalizer leaves alone: the two states, the last frame, the
current pose, the pyramids and the iteration budget. -/
def sameDriver (a b : Tracking) : Prop :=
  a.mNextState = b.mNextState ∧ a.mLastState = b.mLastState ∧
  a.mLastFrame = b.mLastFrame ∧ a.currentPose = b.currentPose ∧
  a.lastDepth = b.lastDepth ∧ a.lastImage = b.lastImage ∧
  a.lastVMap = b.lastVMap ∧ a.lastNMap = b.lastNMap ∧
  a.nextDepth = b.nextDepth ∧ a.nextVMap = b.nextVMap ∧ a.nextNMap = b.nextNMap ∧
  a.iteration = b.iteration

/-- What the dense tracker leaves alone: the two states, the last frame, the
current pose, the last pyramids, the iteration budget, the sampler of the
solver, the attempt counter and the log. -/
def sameRelocalizer (a b : Tracking) : Prop :=
  a.mNextState = b.mNextState ∧ a.mLastState = b.mLastState ∧
  a.mLastFrame = b.mLastFrame ∧ a.currentPose = b.currentPose ∧
  a.lastDepth = b.lastDepth ∧ a.lastImage = b.lastImage ∧
  a.lastVMap = b.lastVMap ∧ a.lastNMap = b.lastNMap ∧
  a.iteration = b.iteration ∧ a.rng = b.rng ∧ a.mnNoAttempts = b.mnNoAttempts ∧
  a.log = b.log

/-! ## Auxiliary facts -/

theorem Mat4.toMatrix_ofMatrix (N : Matrix (Fin 4) (Fin 4) ℚ) :
    (Mat4.ofMatrix N).toMatrix = N := by
  ext i j
  fin_cases i <;> fin_cases j <;> rfl

theorem Mat4.ofMatrix_toMatrix (A : Mat4) : Mat4.ofMatrix A.toMatrix = A := rfl

theorem Mat4.toMatrix_injective {A B : Mat4} (h : A.toMatrix = B.toMatrix) : A = B := by
  rw [← Mat4.ofMatrix_toMatrix A, ← Mat4.ofMatrix_toMatrix B, h]

theorem Mat4.toMatrix_mul (A B : Mat4) : (A * B).toMatrix = A.toMatrix * B.toMatrix :=
  Mat4.toMatrix_ofMatrix _

theorem Mat4.toMatrix_one : (1 : Mat4).toMatrix = 1 := Mat4.toMatrix_ofMatrix _

theorem Mat4.toMatrix_inverse (M : Mat4) : (inverse M).toMatrix = matInverse M.toMatrix :=
  Mat4.toMatrix_ofMatrix _

theorem Mat4.id_mul (A : Mat4) : 1 * A = A := by
  apply Mat4.toMatrix_injective
  rw [Mat4.toMatrix_mul, Mat4.toMatrix_one, one_mul]

theorem Mat4.det_id : (1 : Mat4).det = 1 := by
  unfold Mat4.det
  rw [Mat4.toMatrix_one, Matrix.det_one]

theorem Mat4.det_id_ne_zero : (1 : Mat4).det ≠ 0 := by
  rw [Mat4.det_id]
  exact one_ne_zero

theorem mul_matInverse (N : Matrix (Fin 4) (Fin 4) ℚ) (h : N.det ≠ 0) :
    N * matInverse N = 1 := by
  unfold matInverse
  rw [Matrix.mul_smul, Matrix.mul_adjugate, smul_smul, inv_mul_cancel₀ h, one_smul]

theorem matInverse_mul (N : Matrix (Fin 4) (Fin 4) ℚ) (h : N.det ≠ 0) :
    matInverse N * N = 1 := by
  unfold matInverse
  rw [Matrix.smul_mul, Matrix.adjugate_mul, smul_smul, inv_mul_cancel₀ h, one_smul]

theorem matrix_det_ne_zero_of_mul_eq_one {M N : Matrix (Fin 4) (Fin 4) ℚ} (h : M * N = 1) :
    M.det ≠ 0 := by
  intro h0
  have hd := congrArg Matrix.det h
  rw [Matrix.det_mul, h0, zero_mul, Matrix.det_one] at hd
  exact zero_ne_one hd

theorem matInverse_eq_of_mul_eq_one {M N : Matrix (Fin 4) (Fin 4) ℚ} (h : M * N = 1) :
    matInverse M = N := by
  have hM := matrix_det_ne_zero_of_mul_eq_one h
  calc matInverse M = matInverse M * (M * N) := by rw [h, mul_one]
    _ = (matInverse M * M) * N := by rw [mul_assoc]
    _ = N := by rw [matInverse_mul M hM, one_mul]

/-- The pose update of one Gauss-Newton step, in closed form, for matrices of the
library. -/
theorem matrix_pose_update (L T D : Matrix (Fin 4) (Fin 4) ℚ) (hL : L.det ≠ 0)
    (hT : T.det ≠ 0) (hD : D.det ≠ 0) :
    L * matInverse (matInverse D * matInverse T * L) = T * D := by
  have hX : (matInverse D * matInverse T * L) * (matInverse L * (T * D)) = 1 := by
    calc (matInverse D * matInverse T * L) * (matInverse L * (T * D))
        = matInverse D * (matInverse T * ((L * matInverse L) * (T * D))) := by
          simp only [mul_assoc]
      _ = matInverse D * ((matInverse T * T) * D) := by
          rw [mul_matInverse L hL, one_mul, mul_assoc]
      _ = 1 := by rw [matInverse_mul T hT, one_mul, matInverse_mul D hD]
  rw [matInverse_eq_of_mul_eq_one hX, ← mul_assoc, mul_matInverse L hL, one_mul]

theorem det_ne_zero_of_mul_eq_one {M N : Mat4} (h : M * N = 1) : M.det ≠ 0 := by
  have h2 := congrArg Mat4.toMatrix h
  rw [Mat4.toMatrix_mul, Mat4.toMatrix_one] at h2
  exact matrix_det_ne_zero_of_mul_eq_one h2

theorem inverse_eq_of_mul_eq_one {M N : Mat4} (h : M * N = 1) : inverse M = N := by
  have h2 := congrArg Mat4.toMatrix h
  rw [Mat4.toMatrix_mul, Mat4.toMatrix_one] at h2
  apply Mat4.toMatrix_injective
  rw [Mat4.toMatrix_inverse, matInverse_eq_of_mul_eq_one h2]

/-- The pose update of one Gauss-Newton step, in closed form. -/
theorem pose_update_closed_form (L T D : Mat4) (hL : L.det ≠ 0) (hT : T.det ≠ 0)
    (hD : D.det ≠ 0) : L * inverse (inverse D * inverse T * L) = T * D := by
  apply Mat4.toMatrix_injective
  simp only [Mat4.toMatrix_mul, Mat4.toMatrix_inverse]
  exact matrix_pose_update L.toMatrix T.toMatrix D.toMatrix hL hT hD

theorem translation_mul_neg (x y z : ℚ) : translation x y z * translation (-x) (-y) (-z) = 1 := by
  apply Mat4.toMatrix_injective
  rw [Mat4.toMatrix_mul, Mat4.toMatrix_one]
  ext i j
  fin_cases i <;> fin_cases j <;>
    simp [translation, Mat4.toMatrix, Matrix.mul_apply, Fin.sum_univ_four, Matrix.vecHead,
      Matrix.vecTail]

theorem translation_det_ne_zero (x y z : ℚ) : (translation x y z).det ≠ 0 :=
  det_ne_zero_of_mul_eq_one (translation_mul_neg x y z)

theorem inverse_translation (x y z : ℚ) :
    inverse (translation x y z) = translation (-x) (-y) (-z) :=
  inverse_eq_of_mul_eq_one (translation_mul_neg x y z)

theorem icpIteration_icpCalls (env : Env) (t : Tracking) (i : Nat) :
    (icpIteration env t i).icpCalls = t.icpCalls ++ [i] := rfl

theorem icpIteration_iteration (env : Env) (t : Tracking) (i : Nat) :
    (icpIteration env t i).iteration = t.iteration := rfl

/-- Running the loop body `n` times at level `i` launches `icpStep` exactly `n`
times at that level and leaves the iteration budget alone. -/
theorem icpLoop_icpCalls (env : Env) (i n : Nat) (t : Tracking) :
    ((List.range n).foldl (fun t _ => icpIteration env t i) t).icpCalls
        = t.icpCalls ++ List.replicate n i ∧
    ((List.range n).foldl (fun t _ => icpIteration env t i) t).iteration = t.iteration := by
  induction n with
  | zero => simp
  | succ n ih =>
    rw [List.range_succ, List.foldl_append]
    simp only [List.foldl_cons, List.foldl_nil]
    rw [icpIteration_icpCalls, icpIteration_iteration, ih.1, ih.2]
    refine ⟨?_, rfl⟩
    rw [List.append_assoc, List.replicate_succ']

theorem icpLevel_icpCalls (env : Env) (t : Tracking) (i : Nat) :
    (icpLevel env t i).icpCalls = t.icpCalls ++ List.replicate (t.iteration i).toNat i :=
  (icpLoop_icpCalls env i (t.iteration i).toNat t).1

theorem icpLevel_iteration (env : Env) (t : Tracking) (i : Nat) :
    (icpLevel env t i).iteration = t.iteration :=
  (icpLoop_icpCalls env i (t.iteration i).toNat t).2

/-- The flag `TrackFrame` returns. -/
theorem TrackFrame_fst (env : Env) (t : Tracking) :
    (TrackFrame env t).1 = !(!(frameSolve env t).bOK &&
      sanityGate env t.mRotThresh t.mTransThresh (frameSolve env t).Td) := by
  unfold TrackFrame
  dsimp only
  split <;> rename_i h <;> simp [h]

theorem ratioTest_tiedRow (i : Nat) : ratioTest (tiedRow i).1 (tiedRow i).2 = false := by
  simp only [ratioTest, tiedRow, decide_eq_false_iff_not]
  norm_num

theorem ratioTest_clearRow (i : Nat) : ratioTest (clearRow i).1 (clearRow i).2 = true := by
  simp only [ratioTest, clearRow, decide_eq_true_eq]
  norm_num

/-- The loop over the rows of the match result, started with `acc`, appends one
match per row that passes the ratio test and, with graph matching, two matches
per row that fails it. -/
theorem collectMatches_foldl_length (g : Bool) (raw : List (DMatch × DMatch))
    (acc : List DMatch) :
    (raw.foldl (fun ms row =>
        if ratioTest row.1 row.2 then ms ++ [row.1]
        else if g then ms ++ [row.1, row.2]
        else ms) acc).length
      = acc.length + raw.countP (fun row => ratioTest row.1 row.2)
        + (if g then 2 * raw.countP (fun row => !ratioTest row.1 row.2) else 0) := by
  induction raw generalizing acc with
  | nil => simp
  | cons row rest ih =>
    rw [List.foldl_cons, ih, List.countP_cons, List.countP_cons]
    cases hr : ratioTest row.1 row.2 <;> cases g <;> simp <;> ring

theorem collectMatches_length (g : Bool) (raw : List (DMatch × DMatch)) :
    (collectMatches g raw).length
      = raw.countP (fun row => ratioTest row.1 row.2)
        + (if g then 2 * raw.countP (fun row => !ratioTest row.1 row.2) else 0) := by
  unfold collectMatches
  rw [collectMatches_foldl_length]
  simp

/-- With fewer than 50 collected matches `TrackMap` returns false. -/
theorem TrackMap_false_of_few (env : Env) (t : Tracking) (g : Bool)
    (h : (collectMatches g (rawMatches env (prepareMap env t).2)).length < 50) :
    (TrackMap env t g).1 = false := by
  unfold TrackMap
  dsimp only
  split
  · rfl
  · unfold matchAndSolve
    simp [h]

/-- With at least 50 collected matches and no early return `TrackMap` returns the
flag of the solver. -/
theorem TrackMap_fst_of_enough (env : Env) (t : Tracking) (g : Bool)
    (hp : (prepareMap env t).1 = false)
    (h : ¬ (collectMatches g (rawMatches env (prepareMap env t).2)).length < 50) :
    (TrackMap env t g).1
      = (mapSolve env (prepareMap env t).2 g
          (collectMatches g (rawMatches env (prepareMap env t).2))).bOK := by
  unfold TrackMap
  dsimp only
  rw [hp]
  unfold matchAndSolve
  dsimp only
  rw [if_neg (by simp), if_neg h]
  split <;> rename_i hb <;> simp at hb <;> simp [hb]

/-- The inner loop of the de-duplication finds a position `j < i` that selected
the same index exactly when there is one. -/
theorem redundant_eq_false_iff (sel : List Int) (i : Nat) :
    redundant sel i = false ↔ ∀ j, j < i → sel.getD j 0 ≠ sel.getD i 0 := by
  unfold redundant
  rw [List.any_eq_false]
  constructor
  · intro h j hj
    have := h j (List.mem_range.2 hj)
    simpa using this
  · intro h j hj
    have := h j (List.mem_range.1 hj)
    simpa using this

/-- The de-duplication loop, run over the first `n` positions of key lists whose
entries are all valid, keeps the positions at which an index is selected for the
first time, in order. -/
theorem selectLoop_eq (q tr : List ORBKey) (sel : List Int)
    (hq : ∀ k ∈ q, k.valid = true) (ht : ∀ k ∈ tr, k.valid = true)
    (n : Nat) (hnq : n ≤ q.length) (hnt : n ≤ tr.length) :
    (List.range n).foldl (fun (pq : List Vec3 × List Vec3) i =>
      if (q.getD i default).valid && (tr.getD i default).valid then
        if !redundant sel i then
          (pq.1 ++ [(q.getD i default).pos], pq.2 ++ [(tr.getD i default).pos])
        else pq
      else pq) ([], [])
    = (((List.range n).filter
          (fun i => decide (∀ j, j < i → sel.getD j 0 ≠ sel.getD i 0))).map
            (fun i => (q.getD i default).pos),
       ((List.range n).filter
          (fun i => decide (∀ j, j < i → sel.getD j 0 ≠ sel.getD i 0))).map
            (fun i => (tr.getD i default).pos)) := by
  induction n with
  | zero => simp
  | succ n ih =>
    have hvq : (q.getD n default).valid = true := by
      rw [List.getD_eq_getElem q default (Nat.lt_of_succ_le hnq)]
      exact hq _ (List.getElem_mem _)
    have hvt : (tr.getD n default).valid = true := by
      rw [List.getD_eq_getElem tr default (Nat.lt_of_succ_le hnt)]
      exact ht _ (List.getElem_mem _)
    rw [List.range_succ, List.foldl_append, ih (Nat.le_of_succ_le hnq) (Nat.le_of_succ_le hnt),
      List.filter_append, List.map_append, List.map_append]
    simp only [List.foldl_cons, List.foldl_nil, hvq, hvt, Bool.and_self, if_true]
    cases hr : redundant sel n
    · have hd : decide (∀ j, j < n → sel.getD j 0 ≠ sel.getD n 0) = true :=
        decide_eq_true ((redundant_eq_false_iff sel n).1 hr)
      rw [List.filter_singleton, hd]
      simp
    · have hd : decide (∀ j, j < n → sel.getD j 0 ≠ sel.getD n 0) = false := by
        apply decide_eq_false
        intro h
        rw [(redundant_eq_false_iff sel n).2 h] at hr
        exact Bool.false_ne_true hr
      rw [List.filter_singleton, hd]
      simp

/-- The number of positions of a list at which a value occurs for the first time
is the number of distinct values of the list. -/
theorem first_occurrences_card (sel : List Int) :
    ((List.range sel.length).filter
        (fun i => decide (∀ j, j < i → sel.getD j 0 ≠ sel.getD i 0))).length
      = sel.toFinset.card := by
  induction sel using List.reverseRecOn with
  | nil => simp
  | append_singleton l a ih =>
    have hfront : (List.range l.length).filter
          (fun i => decide (∀ j, j < i → (l ++ [a]).getD j 0 ≠ (l ++ [a]).getD i 0))
        = (List.range l.length).filter
          (fun i => decide (∀ j, j < i → l.getD j 0 ≠ l.getD i 0)) := by
      apply List.filter_congr
      intro i hi
      have hi2 := List.mem_range.1 hi
      rw [List.getD_append l [a] 0 i hi2]
      apply decide_eq_decide.2
      constructor
      · intro h j hj
        have := h j hj
        rwa [List.getD_append l [a] 0 j (lt_trans hj hi2)] at this
      · intro h j hj
        rw [List.getD_append l [a] 0 j (lt_trans hj hi2)]
        exact h j hj
    have hlast : (∀ j, j < l.length → (l ++ [a]).getD j 0 ≠ (l ++ [a]).getD l.length 0)
        ↔ a ∉ l := by
      have hla : (l ++ [a]).getD l.length 0 = a := by
        rw [List.getD_append_right l [a] 0 l.length (le_refl _)]
        simp
      rw [hla]
      constructor
      · intro h hmem
        obtain ⟨j, hj, hja⟩ := List.getElem_of_mem hmem
        have := h j hj
        rw [List.getD_append l [a] 0 j hj, List.getD_eq_getElem l 0 hj] at this
        exact this hja
      · intro h j hj heq
        rw [List.getD_append l [a] 0 j hj, List.getD_eq_getElem l 0 hj] at heq
        exact h (heq ▸ List.getElem_mem hj)
    have hfin : (l ++ [a]).toFinset = insert a l.toFinset := by
      ext x
      simp [or_comm]
    rw [List.length_append, List.length_singleton, List.range_succ, List.filter_append,
      List.length_append, hfront, ih, hfin, List.filter_singleton]
    by_cases hmem : a ∈ l
    · have hd : decide (∀ j, j < l.length →
          (l ++ [a]).getD j 0 ≠ (l ++ [a]).getD l.length 0) = false := by
        rw [decide_eq_false_iff_not, hlast]
        exact not_not.2 hmem
      rw [hd, Finset.insert_eq_of_mem (List.mem_toFinset.2 hmem)]
      simp
    · have hd : decide (∀ j, j < l.length →
          (l ++ [a]).getD j 0 ≠ (l ++ [a]).getD l.length 0) = true := by
        rw [decide_eq_true_eq, hlast]
        exact hmem
      rw [hd, Finset.card_insert_of_not_mem (fun h => hmem (List.mem_toFinset.1 h))]
      simp

theorem sameDriver_refl (t : Tracking) : sameDriver t t :=
  ⟨rfl, rfl, rfl, rfl, rfl, rfl, rfl, rfl, rfl, rfl, rfl, rfl⟩

theorem sameDriver_trans {a b c : Tracking} (h1 : sameDriver a b) (h2 : sameDriver b c) :
    sameDriver a c := by
  unfold sameDriver at *
  obtain ⟨a1, a2, a3, a4, a5, a6, a7, a8, a9, a10, a11, a12⟩ := h1
  obtain ⟨b1, b2, b3, b4, b5, b6, b7, b8, b9, b10, b11, b12⟩ := h2
  exact ⟨a1.trans b1, a2.trans b2, a3.trans b3, a4.trans b4, a5.trans b5, a6.trans b6,
    a7.trans b7, a8.trans b8, a9.trans b9, a10.trans b10, a11.trans b11, a12.trans b12⟩

theorem reloadMapKeys_sameDriver (env : Env) (t : Tracking) :
    sameDriver (reloadMapKeys env t).2 t := by
  unfold reloadMapKeys
  dsimp only
  split <;> exact sameDriver_refl t

theorem prepareMap_sameDriver (env : Env) (t : Tracking) :
    sameDriver (prepareMap env t).2 t := by
  unfold prepareMap
  split
  · exact reloadMapKeys_sameDriver env t
  · exact sameDriver_refl t

theorem matchAndSolve_sameDriver (env : Env) (t : Tracking) (g : Bool) :
    sameDriver (matchAndSolve env t g).2 t := by
  unfold matchAndSolve
  dsimp only
  split
  · exact sameDriver_refl t
  · split <;> exact sameDriver_refl t

/-- The relocalizer touches neither the states nor the last frame, the current
pose, the pyramids or the iteration budget. -/
theorem TrackMap_sameDriver (env : Env) (t : Tracking) (g : Bool) :
    sameDriver (TrackMap env t g).2 t := by
  unfold TrackMap
  dsimp only
  split
  · exact prepareMap_sameDriver env t
  · exact sameDriver_trans (matchAndSolve_sameDriver env _ g) (prepareMap_sameDriver env t)

theorem prepareMap_of_not_OK (env : Env) (t : Tracking) (h : t.mLastState ≠ State.OK) :
    prepareMap env t = (false, t) := by
  unfold prepareMap
  rw [if_neg h]

theorem TrackMap_of_not_OK (env : Env) (t : Tracking) (g : Bool)
    (h : t.mLastState ≠ State.OK) : TrackMap env t g = matchAndSolve env t g := by
  unfold TrackMap
  rw [prepareMap_of_not_OK env t h]
  rfl

/-- With at least 50 collected matches the second part of `TrackMap` returns the
flag of the solver and stores the advanced sampler. -/
theorem matchAndSolve_of_enough (env : Env) (t : Tracking) (g : Bool)
    (h : ¬ (collectMatches g (rawMatches env t)).length < 50) :
    (matchAndSolve env t g).1
        = (mapSolve env t g (collectMatches g (rawMatches env t))).bOK ∧
    (matchAndSolve env t g).2.rng
        = (mapSolve env t g (collectMatches g (rawMatches env t))).rng := by
  unfold matchAndSolve
  dsimp only
  rw [if_neg h]
  split <;> rename_i hb <;> simp at hb <;> simp [hb]

/-- A fold of steps that all respect a property respects it. -/
theorem foldl_respects {β : Type} (P : Tracking → Prop) (f : Tracking → β → Tracking)
    (hf : ∀ t b, P t → P (f t b)) (l : List β) (t : Tracking) (h : P t) : P (l.foldl f t) := by
  induction l generalizing t with
  | nil => exact h
  | cons b rest ih => exact ih (f t b) (hf t b h)

theorem icpLevel_sameRelocalizer (env : Env) (t0 t : Tracking) (i : Nat)
    (h : sameRelocalizer t t0) : sameRelocalizer (icpLevel env t i) t0 := by
  unfold icpLevel
  apply foldl_respects (fun s => sameRelocalizer s t0) _ _ _ _ h
  intro s _ hs
  exact hs

/-- The dense tracker touches neither the states nor the last frame, the current
pose, the last pyramids, the sampler, the attempt counter or the log. -/
theorem computeSE3_sameRelocalizer (env : Env) (t : Tracking) :
    sameRelocalizer (computeSE3 env t) t := by
  unfold computeSE3
  dsimp only
  have h := foldl_respects (fun s => sameRelocalizer s t) (icpLevel env)
    (fun s i hs => icpLevel_sameRelocalizer env t s i hs) ((List.range NUM_PYRS).reverse)
    { t with
      nextPose := t.mLastFrame.mPose
      lastPose := t.mLastFrame.mPose
      lastUpdatedPose := t.mLastFrame.mPose
      mNextFrame := t.mNextFrame.SetPose t.mLastFrame.mPose }
    ⟨rfl, rfl, rfl, rfl, rfl, rfl, rfl, rfl, rfl, rfl, rfl, rfl⟩
  exact h

/-- The preprocessing touches neither the states nor the last frame, the current
pose, the iteration budget, the sampler, the attempt counter or the log. -/
theorem initICP_driver (env : Env) (t : Tracking) :
    (initICP env t).mNextState = t.mNextState ∧ (initICP env t).mLastState = t.mLastState ∧
    (initICP env t).mLastFrame = t.mLastFrame ∧ (initICP env t).currentPose = t.currentPose ∧
    (initICP env t).iteration = t.iteration ∧ (initICP env t).rng = t.rng ∧
    (initICP env t).mnNoAttempts = t.mnNoAttempts ∧ (initICP env t).log = t.log :=
  ⟨rfl, rfl, rfl, rfl, rfl, rfl, rfl, rfl⟩

/-- After `initICP` the last pyramids of the three levels are the next pyramids
from before. -/
theorem initICP_swaps (env : Env) (t : Tracking) (i : Nat) (hi : i < NUM_PYRS) :
    (initICP env t).lastDepth i = t.nextDepth i ∧
    (initICP env t).lastVMap i = t.nextVMap i ∧
    (initICP env t).lastNMap i = t.nextNMap i ∧
    (initICP env t).lastImage i = t.nextImage i := by
  unfold NUM_PYRS at hi
  interval_cases i <;> exact ⟨rfl, rfl, rfl, rfl⟩

/-- The flag `TrackICP` returns. -/
theorem TrackICP_fst (env : Env) (t : Tracking) :
    (TrackICP env t).1 = !((env.SolveICP t.mNextFrame t.mLastFrame).isnan ||
      (env.SolveICP t.mNextFrame t.mLastFrame).gt (1 / 1000)) := by
  unfold TrackICP
  dsimp only
  cases h1 : (env.SolveICP t.mNextFrame t.mLastFrame).isnan <;>
    cases h2 : (env.SolveICP t.mNextFrame t.mLastFrame).gt (1 / 1000) <;> rfl

/-- A call of `Track` in state `OK`: the frame is stored, preprocessed and
tracked, and the second part of `Track` is entered with the flag true. -/
theorem Track_of_OK (env : Env) (t : Tracking) (imRGB imD : CvMat)
    (h : t.mNextState = State.OK) :
    Track env t imRGB imD
      = trackFinish env true
          (computeSE3 env (initICP env (withFrame env t imRGB imD))) := by
  have hs : (withFrame env t imRGB imD).mNextState = t.mNextState := rfl
  unfold Track trackDispatch
  dsimp only
  rw [hs, h]

/-- A call of `Track` in state `NOT_INITIALISED`. -/
theorem Track_of_NOT_INITIALISED (env : Env) (t : Tracking) (imRGB imD : CvMat)
    (h : t.mNextState = State.NOT_INITIALISED) :
    Track env t imRGB imD
      = trackFinish env true (InitTracking (initICP env (withFrame env t imRGB imD))).2 := by
  have hs : (withFrame env t imRGB imD).mNextState = t.mNextState := rfl
  unfold Track trackDispatch
  dsimp only
  rw [hs, h]
  rfl

/-- A call of `Track` in state `LOST`: the second part of `Track` is entered with
the outcome of the first relocalization attempt. -/
theorem Track_of_LOST (env : Env) (t : Tracking) (imRGB imD : CvMat)
    (h : t.mNextState = State.LOST) :
    Track env t imRGB imD
      = trackFinish env (TrackMap env (withFrame env t imRGB imD) true).1
          (TrackMap env (withFrame env t imRGB imD) true).2 := by
  have hs : (withFrame env t imRGB imD).mNextState = t.mNextState := rfl
  unfold Track trackDispatch
  dsimp only
  rw [hs, h]

/-- The second part of `Track`, entered with the flag true. -/
theorem trackFinish_true (env : Env) (t : Tracking) :
    (trackFinish env true t).1 = true ∧
    (trackFinish env true t).2.mNextState = State.OK ∧
    (trackFinish env true t).2.mLastState = t.mNextState ∧
    (trackFinish env true t).2.rng = t.rng ∧
    (trackFinish env true t).2.mnNoAttempts = t.mnNoAttempts ∧
    (trackFinish env true t).2.lastDepth = t.lastDepth ∧
    (trackFinish env true t).2.lastVMap = t.lastVMap ∧
    (trackFinish env true t).2.lastNMap = t.lastNMap ∧
    (trackFinish env true t).2.lastImage = t.lastImage ∧
    (t.mNextState ≠ State.LOST → (trackFinish env true t).2.log = t.log) := by
  unfold trackFinish
  rw [if_neg (by simp)]
  unfold SetState
  dsimp only
  split
  · rename_i hl
    refine ⟨rfl, rfl, rfl, rfl, rfl, rfl, rfl, rfl, rfl, fun hne => absurd hl hne⟩
  · exact ⟨rfl, rfl, rfl, rfl, rfl, rfl, rfl, rfl, rfl, fun _ => rfl⟩

/-- The second part of `Track`, entered with the flag false: a second
relocalization attempt is made, and only its failure changes the state. -/
theorem trackFinish_false (env : Env) (t : Tracking) :
    trackFinish env false t
      = if (TrackMap env (beforeRetry t) true).1 = true then
          (true, (TrackMap env (beforeRetry t) true).2)
        else (false, SetState (TrackMap env (beforeRetry t) true).2 State.LOST) := by
  unfold trackFinish
  dsimp only
  cases hr : (TrackMap env (beforeRetry t) true).1 <;> rfl

/-- A call of `Track` in state `LOST` whose first relocalization attempt fails:
the outcome is decided by the second attempt, and only its failure sets the
state. -/
theorem Track_of_LOST_first_fails (env : Env) (t : Tracking) (imRGB imD : CvMat)
    (h : t.mNextState = State.LOST) (h1 : (firstAttempt env t imRGB imD).1 = false) :
    Track env t imRGB imD
      = if (retryAttempt env t imRGB imD).1 = true then
          (true, (retryAttempt env t imRGB imD).2)
        else (false, SetState (retryAttempt env t imRGB imD).2 State.LOST) := by
  rw [Track_of_LOST env t imRGB imD h]
  have h1b : (TrackMap env (withFrame env t imRGB imD) true).1 = false := h1
  rw [h1b, trackFinish_false]
  rfl

/-- The state in which the second relocalization attempt ends agrees with the
tracker before the call in what the relocalizer leaves alone. -/
theorem retryAttempt_sameDriver (env : Env) (t : Tracking) (imRGB imD : CvMat) :
    sameDriver (retryAttempt env t imRGB imD).2 t := by
  have h2 : sameDriver (retryAttempt env t imRGB imD).2
      (beforeRetry (firstAttempt env t imRGB imD).2) := TrackMap_sameDriver env _ true
  have h1 : sameDriver (firstAttempt env t imRGB imD).2 (withFrame env t imRGB imD) :=
    TrackMap_sameDriver env _ true
  have hb : sameDriver (beforeRetry (firstAttempt env t imRGB imD).2)
      (firstAttempt env t imRGB imD).2 := sameDriver_refl _
  have hw : sameDriver (withFrame env t imRGB imD) t := sameDriver_refl _
  exact sameDriver_trans h2 (sameDriver_trans hb (sameDriver_trans h1 hw))

/-- Every match result of `retryEnv` yields 50 collected matches. -/
theorem retryEnv_collects_fifty (t : Tracking) :
    (collectMatches true (rawMatches retryEnv t)).length = 50 := by
  have hraw : rawMatches retryEnv t = (List.range 50).map clearRow := rfl
  have hall : ((List.range 50).map clearRow).countP (fun row => ratioTest row.1 row.2)
      = ((List.range 50).map clearRow).length := by
    rw [List.countP_eq_length]
    intro row hrow
    obtain ⟨i, _, rfl⟩ := List.mem_map.1 hrow
    exact ratioTest_clearRow i
  have hnone : ((List.range 50).map clearRow).countP (fun row => !ratioTest row.1 row.2)
      = 0 := by
    rw [List.countP_eq_zero]
    intro row hrow
    obtain ⟨i, _, rfl⟩ := List.mem_map.1 hrow
    simp [ratioTest_clearRow]
  rw [collectMatches_length, hraw, hall, hnone]
  simp

/-- In a tracker that is not coming from state `OK`, the relocalizer of
`retryEnv` succeeds exactly when the sampler of the solver has left its initial
state, and it advances the sampler by one. -/
theorem retryEnv_TrackMap (t : Tracking) (h : t.mLastState ≠ State.OK) :
    (TrackMap retryEnv t true).1 = decide (t.rng ≠ 0) ∧
    (TrackMap retryEnv t true).2.rng = t.rng + 1 := by
  rw [TrackMap_of_not_OK retryEnv t true h]
  have hlen : ¬ (collectMatches true (rawMatches retryEnv t)).length < 50 := by
    rw [retryEnv_collects_fifty]
    decide
  have hm := matchAndSolve_of_enough retryEnv t true hlen
  exact ⟨hm.1, hm.2⟩

theorem trackFinish_true_iteration (env : Env) (t : Tracking) :
    (trackFinish env true t).2.iteration = t.iteration := by
  unfold trackFinish
  rw [if_neg (by simp)]
  unfold SetState
  dsimp only
  split <;> rfl

/-- No call of `Track` changes the iteration budget that the constructor stored. -/
theorem Track_iteration (env : Env) (t : Tracking) (imRGB imD : CvMat) :
    (Track env t imRGB imD).2.iteration = t.iteration := by
  cases hst : t.mNextState
  · rw [Track_of_NOT_INITIALISED env t imRGB imD hst, trackFinish_true_iteration]
    rfl
  · rw [Track_of_OK env t imRGB imD hst, trackFinish_true_iteration]
    have hc := computeSE3_sameRelocalizer env (initICP env (withFrame env t imRGB imD))
    unfold sameRelocalizer at hc
    rw [hc.2.2.2.2.2.2.2.2.1]
    rfl
  · cases hfirst : (firstAttempt env t imRGB imD).1
    · rw [Track_of_LOST_first_fails env t imRGB imD hst hfirst]
      have h2 := retryAttempt_sameDriver env t imRGB imD
      split
      · exact h2.2.2.2.2.2.2.2.2.2.2.2
      · exact h2.2.2.2.2.2.2.2.2.2.2.2
    · have hfirst2 : (TrackMap env (withFrame env t imRGB imD) true).1 = true := hfirst
      rw [Track_of_LOST env t imRGB imD hst, hfirst2, trackFinish_true_iteration]
      exact (TrackMap_sameDriver env (withFrame env t imRGB imD) true).2.2.2.2.2.2.2.2.2.2.2

/-- The constructor stores the budget of 10, 5 and 3 iterations for the levels
0, 1 and 2, and `Track` and `ResetTracking` keep it. -/
theorem iteration_budget (env : Env) (g : Tracking) (imRGB imD : CvMat) :
    ((Tracking_ctor g).iteration 0 = 10 ∧ (Tracking_ctor g).iteration 1 = 5 ∧
      (Tracking_ctor g).iteration 2 = 3) ∧
    (∀ t : Tracking, (Track env t imRGB imD).2.iteration = t.iteration) ∧
    (∀ t : Tracking, (ResetTracking t).iteration = t.iteration) :=
  ⟨⟨by simp [Tracking_ctor], by simp [Tracking_ctor], by simp [Tracking_ctor]⟩,
    fun t => Track_iteration env t imRGB imD, fun _ => rfl⟩

/-! ## The claims -/

/-- C4. `ResetTracking` sets the next state to `NOT_INITIALISED` and changes
nothing else: putting the old next state back gives the tracker as it was, so
in particular the map pointer, the last frame, the current pose, the previous
state and the attempt counter are those from before the call. -/
theorem C4_reset_only_sets_next_state (t : Tracking) :
    (ResetTracking t).mNextState = State.NOT_INITIALISED ∧
    { ResetTracking t with mNextState := t.mNextState } = t ∧
    (ResetTracking t).mpMap = t.mpMap ∧
    (ResetTracking t).mLastFrame = t.mLastFrame ∧
    (ResetTracking t).currentPose = t.currentPose ∧
    (ResetTracking t).mLastState = t.mLastState ∧
    (ResetTracking t).mnNoAttempts = t.mnNoAttempts :=
  ⟨rfl, rfl, rfl, rfl, rfl, rfl, rfl⟩

/-- C9. With the iteration budget the constructor stores (10, 5 and 3 for the
levels 0, 1 and 2), `computeSE3` launches `icpStep` exactly 18 times whatever the
collaborators compute: 3 times at level 2, then 5 times at level 1, then 10
times at level 0. -/
theorem C9_computeSE3_fixed_schedule (env : Env) (t : Tracking)
    (h0 : t.iteration 0 = 10) (h1 : t.iteration 1 = 5) (h2 : t.iteration 2 = 3) :
    (computeSE3 env t).icpCalls
        = t.icpCalls ++ (List.replicate 3 2 ++ List.replicate 5 1 ++ List.replicate 10 0) ∧
    (computeSE3 env t).icpCalls.length = t.icpCalls.length + 18 := by
  have key : (computeSE3 env t).icpCalls
      = t.icpCalls ++ (List.replicate 3 2 ++ List.replicate 5 1 ++ List.replicate 10 0) := by
    unfold computeSE3
    simp only [NUM_PYRS, List.range_succ, List.range_zero, List.nil_append, List.reverse_append,
      List.reverse_cons, List.reverse_nil, List.singleton_append, List.foldl_cons,
      List.foldl_nil]
    simp only [icpLevel_icpCalls, icpLevel_iteration, h0, h1, h2, List.append_assoc]
    rfl
  refine ⟨key, ?_⟩
  rw [key]
  simp

/-- C9, at the tracker the constructor builds. -/
theorem C9_computeSE3_fixed_schedule_witness :
    (computeSE3 idleEnv (Tracking_ctor blankTracking)).icpCalls
        = (Tracking_ctor blankTracking).icpCalls
          ++ (List.replicate 3 2 ++ List.replicate 5 1 ++ List.replicate 10 0) ∧
    (computeSE3 idleEnv (Tracking_ctor blankTracking)).icpCalls.length
        = (Tracking_ctor blankTracking).icpCalls.length + 18 :=
  C9_computeSE3_fixed_schedule idleEnv (Tracking_ctor blankTracking)
    (by simp [Tracking_ctor]) (by simp [Tracking_ctor]) (by simp [Tracking_ctor])

/-- C10, as amended. In one Gauss-Newton iteration of `computeSE3`, for
invertible `lastPose` and `nextPose` and an invertible exponential of the
increment `result` (the LDLT solution of `matA * result = vecB`), the new
estimate is the previous one multiplied on the right by `exp(result)`, the
exponential of the increment itself and not of its negative; the outcome does
not depend on `lastPose`. -/
theorem C10_update_is_right_multiplication (env : Env) (t : Tracking) (i : Nat)
    (hL : t.lastPose.det ≠ 0) (hT : t.nextPose.det ≠ 0)
    (hD : (env.se3Exp (gnIncrement env t i)).det ≠ 0) :
    (icpIteration env t i).nextPose = t.nextPose * env.se3Exp (gnIncrement env t i) ∧
    ∀ L : Mat4, L.det ≠ 0 →
      (icpIteration env { t with lastPose := L } i).nextPose = (icpIteration env t i).nextPose := by
  have h1 : (icpIteration env t i).nextPose = t.nextPose * env.se3Exp (gnIncrement env t i) :=
    pose_update_closed_form t.lastPose t.nextPose _ hL hT hD
  refine ⟨h1, fun L hL2 => ?_⟩
  rw [h1]
  exact pose_update_closed_form L t.nextPose _ hL2 hT hD

/-- C10 as amended, at the identity poses with the increment (1, 0, 0, 0, 0, 0). -/
theorem C10_update_is_right_multiplication_witness :
    (icpIteration idleEnv blankTracking 0).nextPose
        = blankTracking.nextPose * idleEnv.se3Exp (gnIncrement idleEnv blankTracking 0) ∧
    ∀ L : Mat4, L.det ≠ 0 →
      (icpIteration idleEnv { blankTracking with lastPose := L } 0).nextPose
        = (icpIteration idleEnv blankTracking 0).nextPose :=
  C10_update_is_right_multiplication idleEnv blankTracking 0
    Mat4.det_id_ne_zero Mat4.det_id_ne_zero (translation_det_ne_zero _ _ _)

/-- C10 as stated fails: from the identity poses, with the increment
(1, 0, 0, 0, 0, 0), the step arrives at the translation by +1 along the first
axis, while `nextPose * exp(-result)` is the translation by -1. -/
theorem C10_counterexample :
    blankTracking.lastPose.det ≠ 0 ∧ blankTracking.nextPose.det ≠ 0 ∧
    gnIncrement idleEnv blankTracking 0 = ![1, 0, 0, 0, 0, 0] ∧
    (icpIteration idleEnv blankTracking 0).nextPose = translation 1 0 0 ∧
    blankTracking.nextPose * idleEnv.se3Exp (-(gnIncrement idleEnv blankTracking 0))
      = translation (-1) 0 0 ∧
    (icpIteration idleEnv blankTracking 0).nextPose
      ≠ blankTracking.nextPose * idleEnv.se3Exp (-(gnIncrement idleEnv blankTracking 0)) := by
  have hone : (1 : Mat4).det ≠ 0 := Mat4.det_id_ne_zero
  have hstep : (icpIteration idleEnv blankTracking 0).nextPose = translation 1 0 0 := by
    have h := pose_update_closed_form (1 : Mat4) 1 (translation 1 0 0) hone hone
      (translation_det_ne_zero _ _ _)
    rw [Mat4.id_mul (translation 1 0 0)] at h
    exact h
  have hneg : blankTracking.nextPose * idleEnv.se3Exp (-(gnIncrement idleEnv blankTracking 0))
      = translation (-1) 0 0 := by
    have hexp : idleEnv.se3Exp (-(gnIncrement idleEnv blankTracking 0))
        = translation (-1) 0 0 := by
      simp [idleEnv, benchEnv, gnIncrement]
    rw [hexp]
    exact Mat4.id_mul _
  refine ⟨hone, hone, rfl, hstep, hneg, ?_⟩
  rw [hstep, hneg]
  intro h
  have h03 := congrArg Mat4.e03 h
  simp only [translation] at h03
  norm_num at h03

/-- C7, as amended. `TrackFrame` returns false exactly when the solver reports
failure and the sanity gate trips, that is when some Euler-angle sine of the
rotation of the inverse of `Td` exceeds `mRotThresh` in magnitude or some
translation component of it exceeds `mTransThresh`; when the solver reports
success the gate is not consulted and `TrackFrame` returns true. -/
theorem C7_gate_applies_when_solver_fails (env : Env) (t : Tracking) :
    ((TrackFrame env t).1 = false ↔
      ((frameSolve env t).bOK = false ∧
        ((∃ k, |env.eulerAnglesSin (topLeftCorner (inverse (frameSolve env t).Td)) k|
            > t.mRotThresh) ∨
         (∃ k, |topRightCorner (inverse (frameSolve env t).Td) k| > t.mTransThresh)))) ∧
    ((frameSolve env t).bOK = true → (TrackFrame env t).1 = true) := by
  have hgate : sanityGate env t.mRotThresh t.mTransThresh (frameSolve env t).Td = true ↔
      ((∃ k, |env.eulerAnglesSin (topLeftCorner (inverse (frameSolve env t).Td)) k|
            > t.mRotThresh) ∨
       (∃ k, |topRightCorner (inverse (frameSolve env t).Td) k| > t.mTransThresh)) := by
    unfold sanityGate
    generalize env.eulerAnglesSin (topLeftCorner (inverse (frameSolve env t).Td)) = ea
    generalize topRightCorner (inverse (frameSolve env t).Td) = tr
    simp only [Bool.or_eq_true, decide_eq_true_eq, Fin.exists_fin_succ, IsEmpty.exists_iff,
      or_false, Fin.succ_zero_eq_one, Fin.succ_one_eq_two]
    tauto
  rw [TrackFrame_fst, ← hgate]
  generalize sanityGate env t.mRotThresh t.mTransThresh (frameSolve env t).Td = g
  generalize (frameSolve env t).bOK = b
  cases b <;> cases g <;> simp

/-- C7 as stated fails: the solver reports success with a displacement of one
metre, the first translation component of the inverse of `Td` exceeds the
threshold of one half in magnitude, and `TrackFrame` still returns true. -/
theorem C7_counterexample :
    (frameSolve oneMetreEnv (benchTracking 3)).bOK = true ∧
    (frameSolve oneMetreEnv (benchTracking 3)).Td = translation 1 0 0 ∧
    inverse (frameSolve oneMetreEnv (benchTracking 3)).Td = translation (-1) 0 0 ∧
    |topRightCorner (inverse (frameSolve oneMetreEnv (benchTracking 3)).Td) 0|
      > (benchTracking 3).mTransThresh ∧
    (TrackFrame oneMetreEnv (benchTracking 3)).1 = true := by
  have hb : (frameSolve oneMetreEnv (benchTracking 3)).bOK = true := rfl
  have hTd : (frameSolve oneMetreEnv (benchTracking 3)).Td = translation 1 0 0 := rfl
  have hinv : inverse (frameSolve oneMetreEnv (benchTracking 3)).Td = translation (-1) 0 0 := by
    rw [hTd, inverse_translation]
    simp
  refine ⟨hb, hTd, hinv, ?_, ?_⟩
  · rw [hinv]
    simp [topRightCorner, translation, benchTracking, Mat4.toMatrix]
    norm_num
  · rw [TrackFrame_fst, hb]
    rfl

/-- C5, as amended. `TrackMap` returns false whenever the number of rows of the
k = 2 match result that pass the ratio test, increased when graph matching is
enabled by twice the number of rows that fail it (both neighbours of such a row
are kept), is below 50. With graph matching disabled this is: whenever fewer
than 50 matches pass the ratio test. -/
theorem C5_under_match_returns_false (env : Env) (t : Tracking) (bUseGraphMatching : Bool)
    (h : (rawMatches env (prepareMap env t).2).countP (fun row => ratioTest row.1 row.2)
        + (if bUseGraphMatching then
            2 * (rawMatches env (prepareMap env t).2).countP (fun row => !ratioTest row.1 row.2)
          else 0) < 50) :
    (TrackMap env t bUseGraphMatching).1 = false := by
  apply TrackMap_false_of_few
  rw [collectMatches_length]
  exact h

/-- C5 as amended, on a match result with one passing and one failing row and
graph matching enabled: 1 + 2 * 1 matches are below 50. -/
theorem C5_under_match_returns_false_witness :
    (rawMatches twoRowEnv (prepareMap twoRowEnv (benchTracking 2)).2).countP
        (fun row => ratioTest row.1 row.2)
      + (if true then
          2 * (rawMatches twoRowEnv (prepareMap twoRowEnv (benchTracking 2)).2).countP
            (fun row => !ratioTest row.1 row.2)
        else 0) < 50 ∧
    (TrackMap twoRowEnv (benchTracking 2) true).1 = false := by
  have hraw : rawMatches twoRowEnv (prepareMap twoRowEnv (benchTracking 2)).2
      = [clearRow 0, tiedRow 1] := rfl
  have h : (rawMatches twoRowEnv (prepareMap twoRowEnv (benchTracking 2)).2).countP
        (fun row => ratioTest row.1 row.2)
      + (if true then
          2 * (rawMatches twoRowEnv (prepareMap twoRowEnv (benchTracking 2)).2).countP
            (fun row => !ratioTest row.1 row.2)
        else 0) < 50 := by
    rw [hraw]
    simp [List.countP_cons, ratioTest_tiedRow, ratioTest_clearRow]
  exact ⟨h, C5_under_match_returns_false twoRowEnv (benchTracking 2) true h⟩

/-- C5 as stated fails with graph matching enabled: of the 25 rows of the match
result none passes the ratio test, yet both neighbours of every row are kept, 50
matches are collected and `TrackMap` returns true once the solver succeeds.
With graph matching disabled the same match result makes `TrackMap` return
false. -/
theorem C5_counterexample :
    (rawMatches tiedEnv (prepareMap tiedEnv (benchTracking 25)).2).length = 25 ∧
    (rawMatches tiedEnv (prepareMap tiedEnv (benchTracking 25)).2).countP
        (fun row => ratioTest row.1 row.2) = 0 ∧
    (collectMatches true
        (rawMatches tiedEnv (prepareMap tiedEnv (benchTracking 25)).2)).length = 50 ∧
    (TrackMap tiedEnv (benchTracking 25) true).1 = true ∧
    (TrackMap tiedEnv (benchTracking 25) false).1 = false := by
  have hraw : rawMatches tiedEnv (prepareMap tiedEnv (benchTracking 25)).2
      = (List.range 25).map tiedRow := rfl
  have hpass : (rawMatches tiedEnv (prepareMap tiedEnv (benchTracking 25)).2).countP
      (fun row => ratioTest row.1 row.2) = 0 := by
    rw [hraw, List.countP_eq_zero]
    intro row hrow
    obtain ⟨i, _, rfl⟩ := List.mem_map.1 hrow
    simp [ratioTest_tiedRow]
  have hfail : (rawMatches tiedEnv (prepareMap tiedEnv (benchTracking 25)).2).countP
      (fun row => !ratioTest row.1 row.2) = 25 := by
    have hall : ((List.range 25).map tiedRow).countP (fun row => !ratioTest row.1 row.2)
        = ((List.range 25).map tiedRow).length := by
      rw [List.countP_eq_length]
      intro row hrow
      obtain ⟨i, _, rfl⟩ := List.mem_map.1 hrow
      simp [ratioTest_tiedRow]
    rw [hraw, hall]
    simp
  have hlen : (collectMatches true
      (rawMatches tiedEnv (prepareMap tiedEnv (benchTracking 25)).2)).length = 50 := by
    rw [collectMatches_length, hpass, hfail]
    rfl
  refine ⟨by rw [hraw]; simp, hpass, hlen, ?_, ?_⟩
  · rw [TrackMap_fst_of_enough tiedEnv (benchTracking 25) true rfl (by rw [hlen]; decide)]
    rfl
  · apply TrackMap_false_of_few
    rw [collectMatches_length, hpass]
    decide

/-- C6. When all selected query and train keys are valid (and the three arrays
that the graph matching returns have one length), `plist` and `qlist` hold, in
order, the positions of exactly those selections whose index does not occur at
an earlier position; the two lists have the same length, which is the number of
distinct values in the list of selected indices. -/
theorem C6_dedup_keeps_first_occurrences (vORB_query vORB_train : List ORBKey)
    (vSelectedIdx : List Int)
    (htrain : vORB_train.length = vORB_query.length)
    (hsel : vSelectedIdx.length = vORB_query.length)
    (hq : ∀ k ∈ vORB_query, k.valid = true) (ht : ∀ k ∈ vORB_train, k.valid = true) :
    (selectCorrespondences vORB_query vORB_train vSelectedIdx).1
      = ((List.range vORB_query.length).filter
          (fun i => decide (∀ j, j < i → vSelectedIdx.getD j 0 ≠ vSelectedIdx.getD i 0))).map
            (fun i => (vORB_query.getD i default).pos) ∧
    (selectCorrespondences vORB_query vORB_train vSelectedIdx).2
      = ((List.range vORB_query.length).filter
          (fun i => decide (∀ j, j < i → vSelectedIdx.getD j 0 ≠ vSelectedIdx.getD i 0))).map
            (fun i => (vORB_train.getD i default).pos) ∧
    (selectCorrespondences vORB_query vORB_train vSelectedIdx).1.length
      = (selectCorrespondences vORB_query vORB_train vSelectedIdx).2.length ∧
    (selectCorrespondences vORB_query vORB_train vSelectedIdx).1.length
      = vSelectedIdx.toFinset.card := by
  have h := selectLoop_eq vORB_query vORB_train vSelectedIdx hq ht vORB_query.length
    (le_refl _) (le_of_eq htrain.symm)
  have hsc : selectCorrespondences vORB_query vORB_train vSelectedIdx = _ := h
  rw [hsc]
  refine ⟨rfl, rfl, by simp, ?_⟩
  rw [List.length_map, ← hsel]
  exact first_occurrences_card vSelectedIdx

/-- C6 on five valid selections in which the indices 1 and 2 are each selected
twice: three correspondences are built, those of the positions 0, 1 and 4. -/
theorem C6_dedup_keeps_first_occurrences_witness :
    (selectCorrespondences fiveQueryKeys fiveTrainKeys [1, 2, 1, 2, 3]).1.length = 3 ∧
    (selectCorrespondences fiveQueryKeys fiveTrainKeys [1, 2, 1, 2, 3]).2.length = 3 := by
  have h := C6_dedup_keeps_first_occurrences fiveQueryKeys fiveTrainKeys [1, 2, 1, 2, 3]
    (by simp [fiveQueryKeys, fiveTrainKeys]) (by simp [fiveQueryKeys])
    (by simp [fiveQueryKeys, mapKey]) (by simp [fiveTrainKeys, mapKey])
  have hcard : ([1, 2, 1, 2, 3] : List Int).toFinset.card = 3 := by decide
  exact ⟨h.2.2.2.trans hcard, h.2.2.1 ▸ h.2.2.2.trans hcard⟩

/-- C1, as amended. A call of `Track` in state `OK` does not run the dense
verification: whatever `TrackICP` would report (it reports failure exactly when
the energy is NaN or above 1e-3), `Track` returns true and the driver state
after the call is `OK`, entered from `OK`; the relocalization path is not
entered, so the solver is not called, the attempt counter stays and nothing is
logged. -/
theorem C1_track_in_OK_skips_dense_verification (env : Env) (t : Tracking)
    (imRGB imD : CvMat) (h : t.mNextState = State.OK) :
    (∀ s : Tracking, (TrackICP env s).1 = false ↔
      ((env.SolveICP s.mNextFrame s.mLastFrame).isnan = true ∨
       (env.SolveICP s.mNextFrame s.mLastFrame).gt (1 / 1000) = true)) ∧
    (Track env t imRGB imD).1 = true ∧
    (Track env t imRGB imD).2.mNextState = State.OK ∧
    (Track env t imRGB imD).2.mLastState = State.OK ∧
    (Track env t imRGB imD).2.rng = t.rng ∧
    (Track env t imRGB imD).2.mnNoAttempts = t.mnNoAttempts ∧
    (Track env t imRGB imD).2.log = t.log := by
  constructor
  · intro s
    rw [TrackICP_fst]
    cases (env.SolveICP s.mNextFrame s.mLastFrame).isnan <;>
      cases (env.SolveICP s.mNextFrame s.mLastFrame).gt (1 / 1000) <;> simp
  · rw [Track_of_OK env t imRGB imD h]
    have hc := computeSE3_sameRelocalizer env (initICP env (withFrame env t imRGB imD))
    have hi := initICP_driver env (withFrame env t imRGB imD)
    have hf := trackFinish_true env (computeSE3 env (initICP env (withFrame env t imRGB imD)))
    unfold sameRelocalizer at hc
    obtain ⟨c1, c2, c3, c4, c5, c6, c7, c8, c9, c10, c11, c12⟩ := hc
    obtain ⟨i1, i2, i3, i4, i5, i6, i7, i8⟩ := hi
    obtain ⟨f1, f2, f3, f4, f5, f6, f7, f8, f9, f10⟩ := hf
    have hstate : (computeSE3 env (initICP env (withFrame env t imRGB imD))).mNextState
        = State.OK := by
      rw [c1, i1]
      exact h
    refine ⟨f1, f2, ?_, ?_, ?_, ?_⟩
    · rw [f3, hstate]
    · rw [f4, c10, i6]
      rfl
    · rw [f5, c11, i7]
      rfl
    · rw [f10 (by rw [hstate]; decide), c12, i8]
      rfl

/-- C1 as amended, on a tracker in state `OK` whose dense verification would
report NaN. -/
theorem C1_track_in_OK_skips_dense_verification_witness :
    (∀ s : Tracking, (TrackICP nanEnv s).1 = false ↔
      ((nanEnv.SolveICP s.mNextFrame s.mLastFrame).isnan = true ∨
       (nanEnv.SolveICP s.mNextFrame s.mLastFrame).gt (1 / 1000) = true)) ∧
    (Track nanEnv okTracking [] []).1 = true ∧
    (Track nanEnv okTracking [] []).2.mNextState = State.OK ∧
    (Track nanEnv okTracking [] []).2.mLastState = State.OK ∧
    (Track nanEnv okTracking [] []).2.rng = okTracking.rng ∧
    (Track nanEnv okTracking [] []).2.mnNoAttempts = okTracking.mnNoAttempts ∧
    (Track nanEnv okTracking [] []).2.log = okTracking.log :=
  C1_track_in_OK_skips_dense_verification nanEnv okTracking [] [] rfl

/-- C1 as stated fails: the tracker is in state `OK`, the dense verification of
the tracked frame reports NaN and fails, a relocalization from the tracked frame
does not succeed, and still `Track` returns true, logs nothing and leaves the
driver in state `OK`, not `LOST`. -/
theorem C1_counterexample :
    okTracking.mNextState = State.OK ∧
    nanEnv.SolveICP
        (trackDispatch nanEnv (withFrame nanEnv okTracking [] [])).2.mNextFrame
        (trackDispatch nanEnv (withFrame nanEnv okTracking [] [])).2.mLastFrame = CFloat.nan ∧
    (TrackICP nanEnv (trackDispatch nanEnv (withFrame nanEnv okTracking [] [])).2).1 = false ∧
    (TrackMap nanEnv (trackDispatch nanEnv (withFrame nanEnv okTracking [] [])).2 true).1
      = false ∧
    (Track nanEnv okTracking [] []).1 = true ∧
    (Track nanEnv okTracking [] []).2.mNextState = State.OK ∧
    (Track nanEnv okTracking [] []).2.mNextState ≠ State.LOST ∧
    (Track nanEnv okTracking [] []).2.log = [] := by
  have hok : okTracking.mNextState = State.OK := rfl
  have hT := Track_of_OK nanEnv okTracking [] [] hok
  have hf := trackFinish_true nanEnv
    (computeSE3 nanEnv (initICP nanEnv (withFrame nanEnv okTracking [] [])))
  have hc := computeSE3_sameRelocalizer nanEnv (initICP nanEnv (withFrame nanEnv okTracking [] []))
  unfold sameRelocalizer at hc
  have hstate : (computeSE3 nanEnv (initICP nanEnv
      (withFrame nanEnv okTracking [] []))).mNextState = State.OK := by
    rw [hc.1]
    rfl
  have hlog : (Track nanEnv okTracking [] []).2.log = [] := by
    rw [hT, hf.2.2.2.2.2.2.2.2.2 (by rw [hstate]; decide), hc.2.2.2.2.2.2.2.2.2.2.2]
    rfl
  have hnext : (Track nanEnv okTracking [] []).2.mNextState = State.OK := by
    rw [hT]
    exact hf.2.1
  refine ⟨hok, rfl, ?_, ?_, ?_, hnext, ?_, hlog⟩
  · rw [TrackICP_fst]
    rfl
  · apply TrackMap_false_of_few
    have hraw : rawMatches nanEnv (prepareMap nanEnv
        (trackDispatch nanEnv (withFrame nanEnv okTracking [] [])).2).2 = [] := rfl
    rw [hraw]
    decide
  · rw [hT]
    exact hf.1
  · rw [hnext]
    decide

/-- C2 fails on the code. The tracker is in state `LOST`; the first
relocalization attempt of the call fails, the second one, made after the line
"lost tracking", succeeds; `Track` returns true, but no state is set: the
driver is still in state `LOST` after the call. -/
theorem C2_retry_success_leaves_state_LOST :
    (lostTracking 50).mNextState = State.LOST ∧
    (firstAttempt retryEnv (lostTracking 50) [] []).1 = false ∧
    (retryAttempt retryEnv (lostTracking 50) [] []).1 = true ∧
    (Track retryEnv (lostTracking 50) [] []).1 = true ∧
    (Track retryEnv (lostTracking 50) [] []).2.mNextState = State.LOST ∧
    (Track retryEnv (lostTracking 50) [] []).2.mNextState ≠ State.OK := by
  have hlost : (lostTracking 50).mNextState = State.LOST := rfl
  have h1 := retryEnv_TrackMap (withFrame retryEnv (lostTracking 50) [] [])
    (by show State.LOST ≠ State.OK; decide)
  have hfirst : (firstAttempt retryEnv (lostTracking 50) [] []).1 = false := by
    unfold firstAttempt
    rw [h1.1]
    rfl
  have hrng : (firstAttempt retryEnv (lostTracking 50) [] []).2.rng = 1 := by
    unfold firstAttempt
    rw [h1.2]
    rfl
  have hsame : sameDriver (firstAttempt retryEnv (lostTracking 50) [] []).2
      (withFrame retryEnv (lostTracking 50) [] []) := TrackMap_sameDriver retryEnv _ true
  have hlast : (beforeRetry (firstAttempt retryEnv (lostTracking 50) [] []).2).mLastState
      ≠ State.OK := by
    have : (beforeRetry (firstAttempt retryEnv (lostTracking 50) [] []).2).mLastState
        = State.LOST := hsame.2.1
    rw [this]
    decide
  have h2 := retryEnv_TrackMap (beforeRetry (firstAttempt retryEnv (lostTracking 50) [] []).2)
    hlast
  have hretry : (retryAttempt retryEnv (lostTracking 50) [] []).1 = true := by
    unfold retryAttempt
    rw [h2.1]
    have : (beforeRetry (firstAttempt retryEnv (lostTracking 50) [] []).2).rng = 1 := hrng
    rw [this]
    decide
  have hT := Track_of_LOST_first_fails retryEnv (lostTracking 50) [] [] hlost hfirst
  rw [if_pos hretry] at hT
  have hstate : (Track retryEnv (lostTracking 50) [] []).2.mNextState = State.LOST := by
    rw [hT]
    exact (retryAttempt_sameDriver retryEnv (lostTracking 50) [] []).1
  refine ⟨hlost, hfirst, hretry, ?_, hstate, ?_⟩
  · rw [hT]
  · rw [hstate]
    decide

/-- C3. A call of `Track` in state `LOST` in which relocalization fails, that is
in which the first attempt and the attempt made after the line "lost tracking"
both fail, returns false and leaves the driver in state `LOST`; the last frame
and the current pose are those from before the call. -/
theorem C3_failed_relocalization_stays_LOST (env : Env) (t : Tracking) (imRGB imD : CvMat)
    (h : t.mNextState = State.LOST)
    (h1 : (firstAttempt env t imRGB imD).1 = false)
    (h2 : (retryAttempt env t imRGB imD).1 = false) :
    (Track env t imRGB imD).1 = false ∧
    (Track env t imRGB imD).2.mNextState = State.LOST ∧
    (Track env t imRGB imD).2.mLastFrame = t.mLastFrame ∧
    (Track env t imRGB imD).2.currentPose = t.currentPose := by
  rw [Track_of_LOST_first_fails env t imRGB imD h h1, if_neg (by rw [h2]; decide)]
  have hs := retryAttempt_sameDriver env t imRGB imD
  exact ⟨rfl, rfl, hs.2.2.1, hs.2.2.2.1⟩

/-- C3 on a tracker in state `LOST` whose matcher finds nothing. -/
theorem C3_failed_relocalization_stays_LOST_witness :
    (Track idleEnv (lostTracking 0) [] []).1 = false ∧
    (Track idleEnv (lostTracking 0) [] []).2.mNextState = State.LOST ∧
    (Track idleEnv (lostTracking 0) [] []).2.mLastFrame = (lostTracking 0).mLastFrame ∧
    (Track idleEnv (lostTracking 0) [] []).2.currentPose = (lostTracking 0).currentPose :=
  C3_failed_relocalization_stays_LOST idleEnv (lostTracking 0) [] [] rfl
    (TrackMap_false_of_few idleEnv _ true (by decide))
    (TrackMap_false_of_few idleEnv _ true (by decide))

/-- C8, as amended. A call of `Track` in state `NOT_INITIALISED` or `OK` makes
the next pyramids held before the call (depth, vertex map and normal map at each
of the 3 levels) the last pyramids; a call in state `LOST` does not run
`initICP` and leaves the last pyramids as they were. -/
theorem C8_swap_except_when_LOST (env : Env) (t : Tracking) (imRGB imD : CvMat)
    (i : Nat) (hi : i < NUM_PYRS) :
    (Track env t imRGB imD).2.lastDepth i
      = (if t.mNextState = State.LOST then t.lastDepth i else t.nextDepth i) ∧
    (Track env t imRGB imD).2.lastVMap i
      = (if t.mNextState = State.LOST then t.lastVMap i else t.nextVMap i) ∧
    (Track env t imRGB imD).2.lastNMap i
      = (if t.mNextState = State.LOST then t.lastNMap i else t.nextNMap i) := by
  cases hst : t.mNextState
  · rw [Track_of_NOT_INITIALISED env t imRGB imD hst]
    have hf := trackFinish_true env (InitTracking (initICP env (withFrame env t imRGB imD))).2
    have hs := initICP_swaps env (withFrame env t imRGB imD) i hi
    obtain ⟨f1, f2, f3, f4, f5, f6, f7, f8, f9, f10⟩ := hf
    rw [f6, f7, f8, if_neg (by decide)]
    exact ⟨hs.1, hs.2.1, hs.2.2.1⟩
  · rw [Track_of_OK env t imRGB imD hst]
    have hf := trackFinish_true env (computeSE3 env (initICP env (withFrame env t imRGB imD)))
    have hc := computeSE3_sameRelocalizer env (initICP env (withFrame env t imRGB imD))
    have hs := initICP_swaps env (withFrame env t imRGB imD) i hi
    unfold sameRelocalizer at hc
    obtain ⟨c1, c2, c3, c4, c5, c6, c7, c8, c9, c10, c11, c12⟩ := hc
    obtain ⟨f1, f2, f3, f4, f5, f6, f7, f8, f9, f10⟩ := hf
    rw [f6, f7, f8, c5, c7, c8, if_neg (by decide)]
    exact ⟨hs.1, hs.2.1, hs.2.2.1⟩
  · rw [if_pos rfl]
    have h1 : sameDriver (firstAttempt env t imRGB imD).2 (withFrame env t imRGB imD) :=
      TrackMap_sameDriver env _ true
    have h2 := retryAttempt_sameDriver env t imRGB imD
    cases hfirst : (firstAttempt env t imRGB imD).1
    · rw [Track_of_LOST_first_fails env t imRGB imD hst hfirst]
      split
      · exact ⟨congrFun h2.2.2.2.2.1 i, congrFun h2.2.2.2.2.2.2.1 i,
          congrFun h2.2.2.2.2.2.2.2.1 i⟩
      · exact ⟨congrFun h2.2.2.2.2.1 i, congrFun h2.2.2.2.2.2.2.1 i,
          congrFun h2.2.2.2.2.2.2.2.1 i⟩
    · rw [Track_of_LOST env t imRGB imD hst]
      have hfirst2 : (TrackMap env (withFrame env t imRGB imD) true).1 = true := hfirst
      rw [hfirst2]
      have hf := trackFinish_true env (TrackMap env (withFrame env t imRGB imD) true).2
      obtain ⟨f1, f2, f3, f4, f5, f6, f7, f8, f9, f10⟩ := hf
      rw [f6, f7, f8]
      exact ⟨congrFun h1.2.2.2.2.1 i, congrFun h1.2.2.2.2.2.2.1 i,
        congrFun h1.2.2.2.2.2.2.2.1 i⟩

/-- C8 as amended, at level 0 of a tracker in state `OK`. -/
theorem C8_swap_except_when_LOST_witness :
    (Track idleEnv okTracking [] []).2.lastDepth 0
      = (if okTracking.mNextState = State.LOST then okTracking.lastDepth 0
          else okTracking.nextDepth 0) ∧
    (Track idleEnv okTracking [] []).2.lastVMap 0
      = (if okTracking.mNextState = State.LOST then okTracking.lastVMap 0
          else okTracking.nextVMap 0) ∧
    (Track idleEnv okTracking [] []).2.lastNMap 0
      = (if okTracking.mNextState = State.LOST then okTracking.lastNMap 0
          else okTracking.nextNMap 0) :=
  C8_swap_except_when_LOST idleEnv okTracking [] [] 0 (by decide)

/-- C8 as stated fails: in state `LOST` the depth pyramid held as next pyramid
before the call does not become the last pyramid; the last pyramid stays. -/
theorem C8_counterexample :
    lostTrackingWithPyramids.mNextState = State.LOST ∧
    lostTrackingWithPyramids.nextDepth 0 = [1] ∧
    (Track idleEnv lostTrackingWithPyramids [] []).2.lastDepth 0 = [0] ∧
    (Track idleEnv lostTrackingWithPyramids [] []).2.lastDepth 0
      ≠ lostTrackingWithPyramids.nextDepth 0 := by
  have hlost : lostTrackingWithPyramids.mNextState = State.LOST := rfl
  have hfirst : (firstAttempt idleEnv lostTrackingWithPyramids [] []).1 = false :=
    TrackMap_false_of_few idleEnv _ true (by decide)
  have hretry : (retryAttempt idleEnv lostTrackingWithPyramids [] []).1 = false :=
    TrackMap_false_of_few idleEnv _ true (by decide)
  have hT := Track_of_LOST_first_fails idleEnv lostTrackingWithPyramids [] [] hlost hfirst
  rw [if_neg (by rw [hretry]; decide)] at hT
  have hs := retryAttempt_sameDriver idleEnv lostTrackingWithPyramids [] []
  have hlast : (Track idleEnv lostTrackingWithPyramids [] []).2.lastDepth 0 = [0] := by
    rw [hT]
    exact congrFun hs.2.2.2.2.1 0
  refine ⟨hlost, rfl, hlast, ?_⟩
  rw [hlast]
  show ([0] : List ℚ) ≠ [1]
  simp

end Fusion
